import Mathlib

/-!
Verification of the crawler/parser implementation in
`src/lab_5_scraper/scraper.py` (iterative `Crawler`, persistent
`CrawlerRecursive`, `HTMLParser`, `Config` validation, `is_valid_url`).

The Python source is shallowly embedded: pure fragments become Lean
functions on `List String` / `List Char`; the stateful recursive crawler
becomes a fuel-indexed step function over an explicit state (in-memory
frontier plus durable file content) that also emits a trace of observable
events (loads, HTTP requests, appends, persists); exceptions become
`Except`/`Option` results.  All definitions are executable.
-/

/-- `Config`: the validated configuration values the crawler consumes
(`Config.get_seed_urls`, `Config.get_num_articles`).  Headers, encoding,
timeout, and the two boolean flags do not influence the control flow that
the claims are about, so only the two consumed fields are carried. -/
structure Config where
  seed_urls : List String
  num_articles : Nat
deriving DecidableEq

/-- Outcome of `make_request(url, config)` (scraper.py:240-254).
`requests.get` either returns a response object carrying a status code and
a body (the body is modelled as the list of anchor `href` strings that
BeautifulSoup's `find_all` would see in it), or raises a transport-level
exception (`requests` network error / timeout), which `make_request` does
not catch. -/
inductive FetchOutcome where
  | response (status : Nat) (page : List String)
  | transport
deriving DecidableEq

/-- The fixed site-specific URL shape used by `Crawler._extract_url`
(scraper.py:288): `href.startswith('https://gtrksakha.ru/news/20')`. -/
def articleUrlPat : String := "https://gtrksakha.ru/news/20"

/-- `unique_hrefs = list(set(url['href'] for url in urls))` where `urls` is
`find_all('a', href=...startswith(pattern))` (scraper.py:286-289): the
page's anchors filtered by the article-URL shape and deduplicated.  The
Python `set` iteration order is arbitrary; `List.dedup` fixes one order,
and every distinct-element candidate list is reachable as the image of
some page, so claims quantified over all pages cover all set orders. -/
def candidateHrefs (page : List String) : List String :=
  (page.filter (fun h => articleUrlPat.data.isPrefixOf h.data)).dedup

/-- Inner loop of `Crawler._extract_url` (scraper.py:290-295): return the
first candidate that is neither in the frontier `self.urls` nor a seed URL
(`self.get_search_urls()`); `''` when none exists.  (The
`isinstance(url_href, str)` guard can never fire: candidates are strings.) -/
def firstUnseen (urls seeds : List String) : List String → String
  | [] => ""
  | h :: t => if h ∈ urls ∨ h ∈ seeds then firstUnseen urls seeds t else h

/-- `Crawler._extract_url(article_bs)` (scraper.py:276-295). -/
def extractUrl (page urls seeds : List String) : String :=
  firstUnseen urls seeds (candidateHrefs page)

/-- Body of the `while len(self.urls) < num` loop in
`Crawler.find_articles` (scraper.py:307-311), with the loop counter made
explicit: each iteration appends exactly one URL, so the loop runs at most
`num - urls.length` times; `crawlGo` recurses on that bound.
`crawlLoopF` below is the literal fueled while-loop and is proved to agree
with this definition. -/
def crawlGo (page seeds : List String) : List String → Nat → List String
  | urls, 0 => urls
  | urls, k + 1 =>
    if extractUrl page urls seeds = "" then urls
    else crawlGo page seeds (urls ++ [extractUrl page urls seeds]) k

/-- The while-loop of `Crawler.find_articles` for one successfully fetched
seed page (scraper.py:307-311). -/
def crawlLoop (page seeds : List String) (num : Nat) (urls : List String) : List String :=
  crawlGo page seeds urls (num - urls.length)

/-- The while-loop of `Crawler.find_articles` written exactly as in the
source: an unbounded `while` whose condition is re-checked each iteration,
here cut off by explicit fuel (`none` = fuel exhausted before the loop
ended). -/
def crawlLoopF (page seeds : List String) (num : Nat) : List String → Nat → Option (List String)
  | _, 0 => none
  | urls, fuel + 1 =>
    if urls.length < num then
      if extractUrl page urls seeds = "" then some urls
      else crawlLoopF page seeds num (urls ++ [extractUrl page urls seeds]) fuel
    else some urls

/-- The `for seed_url in self.config.get_seed_urls()` loop of
`Crawler.find_articles` (scraper.py:303-311).  A non-200 response skips
the seed; a transport error propagates out of `find_articles`
(`make_request` and `find_articles` contain no `try`), modelled as
`Except.error ()`. -/
def findArticlesFrom (fetch : String → FetchOutcome) (seeds : List String) (num : Nat) :
    List String → List String → Except Unit (List String)
  | [], urls => .ok urls
  | s :: rest, urls =>
    match fetch s with
    | .transport => .error ()
    | .response status page =>
      if status = 200 then
        findArticlesFrom fetch seeds num rest (crawlLoop page seeds num urls)
      else
        findArticlesFrom fetch seeds num rest urls

/-- `Crawler.find_articles` (scraper.py:299-311) run on a freshly
constructed crawler (`self.urls = []`, scraper.py:274).  The result is the
final value of `Crawler.urls`. -/
def findArticles (fetch : String → FetchOutcome) (cfg : Config) : Except Unit (List String) :=
  findArticlesFrom fetch cfg.seed_urls cfg.num_articles cfg.seed_urls []

/-- State of `CrawlerRecursive` (scraper.py:322-365): the in-memory
frontier `self.urls` and the content of the durable frontier file
`recursive_crawler_urls.json` (a JSON array of strings; `json.dump`
followed by `json.load` round-trips it, so the file is modelled by the
list it holds). -/
structure St where
  urls : List String
  file : List String
deriving DecidableEq

/-- Observable events of one `CrawlerRecursive.find_articles` run:
`load c` = `self.urls = json.load(urls_file)` reading content `c`
(scraper.py:349-350); `request u` = `make_request(u, ...)`
(scraper.py:355); `append u` = `self.urls.append(u)` (scraper.py:362);
`persist c` = `json.dump(self.urls, urls_file)` writing content `c`
(scraper.py:363-364). -/
inductive Ev where
  | load (content : List String)
  | request (url : String)
  | append (u : String)
  | persist (content : List String)
deriving DecidableEq

/-- The three control positions of `CrawlerRecursive.find_articles`:
the body entry (`find`), the `for seed_url in ...` loop with the seeds
still to visit (`seeds`), and the inner `while` loop over one fetched
page (`whileM`). -/
inductive RMode where
  | find (st : St)
  | seeds (rest : List String) (st : St)
  | whileM (page : List String) (st : St)

/-- The state a mode is entered with. -/
def RMode.st : RMode → St
  | .find st => st
  | .seeds _ st => st
  | .whileM _ st => st

/-- `CrawlerRecursive.find_articles` (scraper.py:345-365) as a
fuel-indexed step function; the fuel only cuts off the self-recursion
(`self.find_articles()`, scraper.py:365) so the definition is total —
`runRec_enough_fuel` shows a computable bound always suffices.  Result
`(none, tr)` means the run did not complete within the fuel or a
transport exception escaped (the source catches nothing); `(some st, tr)`
is normal completion.  `tr` is the emitted event trace in order. -/
def runRec (fetch : String → FetchOutcome) (cfg : Config) : Nat → RMode → Option St × List Ev
  | 0, _ => (none, [])
  | f + 1, .find st =>
    -- self.urls = json.load(urls_file); if len(self.urls) >= num: return
    if cfg.num_articles ≤ st.file.length then
      (some ⟨st.file, st.file⟩, [Ev.load st.file])
    else
      (fun r => (r.1, Ev.load st.file :: r.2))
        (runRec fetch cfg f (.seeds cfg.seed_urls ⟨st.file, st.file⟩))
  | _ + 1, .seeds [] st => (some st, [])
  | f + 1, .seeds (s :: rest) st =>
    match fetch s with
    | .transport => (none, [Ev.request s])
    | .response status page =>
      if status = 200 then
        match runRec fetch cfg f (.whileM page st) with
        | (none, tr) => (none, Ev.request s :: tr)
        | (some st', tr) =>
          (fun r => (r.1, Ev.request s :: (tr ++ r.2)))
            (runRec fetch cfg f (.seeds rest st'))
      else
        (fun r => (r.1, Ev.request s :: r.2)) (runRec fetch cfg f (.seeds rest st))
  | f + 1, .whileM page st =>
    if st.urls.length < cfg.num_articles then
      if extractUrl page st.urls cfg.seed_urls = "" then (some st, [])
      else
        match runRec fetch cfg f
            (.find ⟨st.urls ++ [extractUrl page st.urls cfg.seed_urls],
                    st.urls ++ [extractUrl page st.urls cfg.seed_urls]⟩) with
        | (none, tr) =>
          (none, Ev.append (extractUrl page st.urls cfg.seed_urls) ::
                 Ev.persist (st.urls ++ [extractUrl page st.urls cfg.seed_urls]) :: tr)
        | (some st'', tr) =>
          (fun r => (r.1,
              Ev.append (extractUrl page st.urls cfg.seed_urls) ::
              Ev.persist (st.urls ++ [extractUrl page st.urls cfg.seed_urls]) :: (tr ++ r.2)))
            (runRec fetch cfg f (.whileM page st''))
    else (some st, [])

/-- Effect of one event on the (memory, file) state. -/
def stepEv (st : St) : Ev → St
  | .load c => ⟨c, st.file⟩
  | .request _ => st
  | .append u => ⟨st.urls ++ [u], st.file⟩
  | .persist c => ⟨st.urls, c⟩

/-- Replay a trace from a state. -/
def replay (st : St) : List Ev → St
  | [] => st
  | e :: tr => replay (stepEv st e) tr

/-- The synchronisation discipline of the persistent crawler's traces:
every `load` reads the true file content, and every `append` is
immediately followed by a `persist` that writes exactly the post-append
in-memory frontier.  (No other event touches the file.) -/
inductive SyncFrom : St → List Ev → Prop
  | nil (st : St) : SyncFrom st []
  | load (st : St) (tr : List Ev) :
      SyncFrom ⟨st.file, st.file⟩ tr → SyncFrom st (.load st.file :: tr)
  | request (st : St) (u : String) (tr : List Ev) :
      SyncFrom st tr → SyncFrom st (.request u :: tr)
  | appendPersist (st : St) (u : String) (tr : List Ev) :
      SyncFrom ⟨st.urls ++ [u], st.urls ++ [u]⟩ tr →
      SyncFrom st (.append u :: .persist (st.urls ++ [u]) :: tr)

/-- The URLs requested over the network during a trace. -/
def requestsOf : List Ev → List String :=
  List.filterMap fun e => match e with | .request u => some u | _ => none

/-- A sufficient fuel budget for each control position of
`CrawlerRecursive.find_articles` (`runRec_enough_fuel`): each discovered
URL grows the durable file by one, so the self-recursion depth is bounded
by the number of URLs still missing, times the work per level (the seed
loop).  The seed-loop and while-loop positions additionally presuppose
the invariant that the in-memory frontier equals the file content, which
holds whenever the source reaches them. -/
def fuelOk (cfg : Config) : RMode → Nat → Prop
  | .find st, f =>
      (cfg.seed_urls.length + 2) * (cfg.num_articles - st.file.length) +
        cfg.seed_urls.length + 2 ≤ f
  | .seeds rest st, f =>
      (rest.length + (cfg.seed_urls.length + 2) * (cfg.num_articles - st.file.length) + 1 ≤ f) ∧
        st.urls = st.file
  | .whileM _ st, f =>
      ((cfg.seed_urls.length + 2) * (cfg.num_articles - st.file.length) + 1 ≤ f) ∧
        st.urls = st.file

/-- Python exceptions that can escape the extraction code paths:
`AttributeError` (calling a method on `None` after a failed
`BeautifulSoup.find`), `ValueError` (`datetime.strptime` format
mismatch), and the uncaught `requests` transport exceptions. -/
inductive PyErr where
  | attributeError
  | valueError
  | transportError
deriving DecidableEq

/-- Digit value of a character (`'0'` has code 48). -/
def dv (c : Char) : Nat := c.toNat - 48

/-- ASCII digit test, as matched by `\d` in CPython `_strptime` regexes. -/
def isDig (c : Char) : Bool := decide (48 ≤ c.toNat ∧ c.toNat ≤ 57)

/-- CPython `_strptime` regex for `%m`, two-digit branches `1[0-2]|0[1-9]`. -/
def okMon2 (v : Nat) : Bool := decide ((10 ≤ v ∧ v ≤ 12) ∨ (1 ≤ v ∧ v ≤ 9))

/-- CPython `_strptime` regex for `%m`, one-digit branch `[1-9]`. -/
def okMon1 (v : Nat) : Bool := decide (1 ≤ v ∧ v ≤ 9)

/-- CPython `_strptime` regex for `%d`, two-digit branches
`3[01]|[12]\d|0[1-9]`. -/
def okDay2 (v : Nat) : Bool := decide ((10 ≤ v ∧ v ≤ 31) ∨ (1 ≤ v ∧ v ≤ 9))

/-- CPython `_strptime` regex for `%d`, one-digit branch `[1-9]`. -/
def okDay1 (v : Nat) : Bool := decide (1 ≤ v ∧ v ≤ 9)

/-- CPython `_strptime` regex for `%H`, two-digit branches `2[0-3]|[0-1]\d`. -/
def okHour2 (v : Nat) : Bool := decide (v ≤ 23)

/-- CPython `_strptime` regex for `%M`, two-digit branch `[0-5]\d`. -/
def okMin2 (v : Nat) : Bool := decide (v ≤ 59)

/-- CPython `_strptime` regex for `%S`, two-digit branches `6[0-1]|[0-5]\d`
(leap seconds allowed by the regex; `datetime` rejects them later). -/
def okSec2 (v : Nat) : Bool := decide (v ≤ 61)

/-- One-digit branch `\d` of `%H`, `%M`, `%S`. -/
def okOne (v : Nat) : Bool := decide (v ≤ 9)

/-- Ordered alternatives for a 1-or-2 digit numeric field exactly as the
CPython `_strptime` regex alternation tries them: the two-digit branches
first, then the one-digit branch; each entry is (value, remaining input).
The enclosing `List.findSome?` chain realises the regex backtracking. -/
def fieldAlts (ok2 ok1 : Nat → Bool) : List Char → List (Nat × List Char)
  | a :: b :: rest =>
    (if isDig a && isDig b && ok2 (10 * dv a + dv b) then [(10 * dv a + dv b, rest)] else []) ++
    (if isDig a && ok1 (dv a) then [(dv a, b :: rest)] else [])
  | [a] => if isDig a && ok1 (dv a) then [(dv a, [])] else []
  | [] => []

/-- `%Y` in CPython `_strptime`: exactly four digits (`\d\d\d\d`). -/
def parse4Y : List Char → Option (Nat × List Char)
  | a :: b :: c :: d :: rest =>
    if isDig a && isDig b && isDig c && isDig d then
      some (1000 * dv a + 100 * dv b + 10 * dv c + dv d, rest)
    else none
  | _ => none

/-- A literal character of the format string. -/
def litChar (c : Char) : List Char → Option (List Char)
  | x :: rest => if x = c then some rest else none
  | [] => none

/-- The literal `T` of the format: `_strptime` compiles its regex with
`re.IGNORECASE`, so a lowercase `t` also matches. -/
def litT : List Char → Option (List Char)
  | x :: rest => if x = 'T' ∨ x = 't' then some rest else none
  | [] => none

/-- The literal tail `+09:00` of the format, which must also end the
input (`_strptime` raises `ValueError` on unconverted trailing data). -/
def tailLit : List Char → Bool
  | [a, b, c, d, e, f] =>
    a = '+' && b = '0' && c = '9' && d = ':' && e = '0' && f = '0'
  | _ => false

/-- `time.strptime(s, '%Y-%m-%dT%H:%M:%S+09:00')` (the regex-matching
stage of `datetime.datetime.strptime`): returns the six matched fields
or `none` for a `ValueError`.  Alternation with backtracking is realised
by `List.findSome?` over the ordered `fieldAlts`. -/
def strptimeFixed (cs : List Char) : Option (Nat × Nat × Nat × Nat × Nat × Nat) :=
  match parse4Y cs with
  | none => none
  | some (y, cs1) =>
    match litChar '-' cs1 with
    | none => none
    | some cs2 =>
      (fieldAlts okMon2 okMon1 cs2).findSome? fun mo =>
        match litChar '-' mo.2 with
        | none => none
        | some cs3 =>
          (fieldAlts okDay2 okDay1 cs3).findSome? fun da =>
            match litT da.2 with
            | none => none
            | some cs4 =>
              (fieldAlts okHour2 okOne cs4).findSome? fun ho =>
                match litChar ':' ho.2 with
                | none => none
                | some cs5 =>
                  (fieldAlts okMin2 okOne cs5).findSome? fun mi =>
                    match litChar ':' mi.2 with
                    | none => none
                    | some cs6 =>
                      (fieldAlts okSec2 okOne cs6).findSome? fun se =>
                        if tailLit se.2 then some (y, mo.1, da.1, ho.1, mi.1, se.1)
                        else none

/-- Gregorian leap-year rule, as used by Python `datetime`. -/
def isLeap (y : Nat) : Bool := (y % 4 = 0 && y % 100 ≠ 0) || y % 400 = 0

/-- Days in a month, as validated by the Python `datetime` constructor. -/
def daysInMonth (y m : Nat) : Nat :=
  if m = 2 then (if isLeap y then 29 else 28)
  else if m = 4 ∨ m = 6 ∨ m = 9 ∨ m = 11 then 30 else 31

/-- The naive `datetime.datetime` value produced by
`HTMLParser.unify_date_format` (the `+09:00` is a literal of the format,
not a `%z` directive, so no timezone is attached). -/
structure DateTime where
  year : Nat
  month : Nat
  day : Nat
  hour : Nat
  minute : Nat
  second : Nat
deriving DecidableEq

/-- `HTMLParser.unify_date_format(date_str)` (scraper.py:430-440):
`datetime.datetime.strptime(date_str, '%Y-%m-%dT%H:%M:%S+09:00')`.
After the regex match, the `datetime` constructor validates the field
ranges (`MINYEAR <= year`, day within the month, `second <= 59` — the
regex itself guarantees month 1-12, day >= 1, hour <= 23, minute <= 59,
year <= 9999).  `none` models the raised `ValueError`. -/
def unify_date_format (cs : List Char) : Option DateTime :=
  match strptimeFixed cs with
  | none => none
  | some (y, m, d, h, mi, s) =>
    if 1 ≤ y ∧ y ≤ 9999 ∧ 1 ≤ m ∧ m ≤ 12 ∧ 1 ≤ d ∧ d ≤ daysInMonth y m ∧
        h ≤ 23 ∧ mi ≤ 59 ∧ s ≤ 59 then
      some ⟨y, m, d, h, mi, s⟩
    else none

/-- Follows the spec's words (§4.4): the fixed site-specific pattern is
the ISO-like shape `YYYY-MM-DDTHH:MM:SS+09:00` — four-digit year,
two-digit month/day/hour/minute/second, capital `T`, the exact offset
`+09:00` — with in-range calendar values.  Used to compare the spec's
"matches the pattern exactly" with what `strptime` actually accepts. -/
def specFixedPattern : List Char → Bool
  | [y1, y2, y3, y4, c1, m1, m2, c2, d1, d2, c3, h1, h2, c4, n1, n2, c5, s1, s2,
     o1, o2, o3, o4, o5, o6] =>
    isDig y1 && isDig y2 && isDig y3 && isDig y4 && isDig m1 && isDig m2 &&
    isDig d1 && isDig d2 && isDig h1 && isDig h2 && isDig n1 && isDig n2 &&
    isDig s1 && isDig s2 &&
    c1 = '-' && c2 = '-' && c3 = 'T' && c4 = ':' && c5 = ':' &&
    o1 = '+' && o2 = '0' && o3 = '9' && o4 = ':' && o5 = '0' && o6 = '0' &&
    (let y := 1000 * dv y1 + 100 * dv y2 + 10 * dv y3 + dv y4
     let m := 10 * dv m1 + dv m2
     let d := 10 * dv d1 + dv d2
     decide (1 ≤ y ∧ 1 ≤ m ∧ m ≤ 12 ∧ 1 ≤ d ∧ d ≤ daysInMonth y m ∧
       10 * dv h1 + dv h2 ≤ 23 ∧ 10 * dv n1 + dv n2 ≤ 59 ∧ 10 * dv s1 + dv s2 ≤ 59))
  | _ => false

/-- The digit character for a value `0..9`. -/
def dChar (n : Nat) : Char := Char.ofNat (48 + n)

/-- A value rendered as exactly two digits. -/
def render2 (n : Nat) : List Char := [dChar (n / 10), dChar (n % 10)]

/-- A value rendered as exactly four digits. -/
def render4 (n : Nat) : List Char :=
  [dChar (n / 1000), dChar (n / 100 % 10), dChar (n / 10 % 10), dChar (n % 10)]

/-- The canonical string of the spec's fixed pattern for given field
values: `YYYY-MM-DDTHH:MM:SS+09:00`. -/
def renderFixed (y m d h mi s : Nat) : List Char :=
  render4 y ++ '-' :: render2 m ++ '-' :: render2 d ++ 'T' :: render2 h ++
    ':' :: render2 mi ++ ':' :: render2 s ++ ['+', '0', '9', ':', '0', '0']

/-- A well-formed ISO date-time string with an arbitrary numeric UTC
offset `shh:mm` (`s` the sign character): the shape the spec calls
"any well-formed ISO date/time string lacking that exact offset". -/
def renderOff (y m d h mi s : Nat) (sgn : Char) (oh om : Nat) : List Char :=
  render4 y ++ '-' :: render2 m ++ '-' :: render2 d ++ 'T' :: render2 h ++
    ':' :: render2 mi ++ ':' :: render2 s ++ sgn :: render2 oh ++ ':' :: render2 om

/-- Modelled from the spec: `core_utils.article.article.Article` is not
under src/; per §3 an ArticleRecord "carries body text (newline-joined
paragraphs), title, author list, publication timestamp, topic-tag list"
and is "Created empty at extraction start" with its id and source URL
set by the constructor (`Article(full_url, article_id)`,
scraper.py:388). -/
structure Article where
  url : String
  article_id : Nat
  text : String := ""
  title : String := ""
  author : List String := []
  date : Option DateTime := none
  topics : List String := []
deriving DecidableEq

/-- The parts of a fetched article page that
`HTMLParser._fill_article_with_text` / `_fill_article_with_meta_information`
read: `body` = the paragraph texts inside `div.news-fulltext` (`none` if
that container is absent — `find` returns `None`); `title` = the text of
`h1.news-title` (`none` if absent); `ldjson` = the (author name,
datePublished) pair from the `application/ld+json` script block (`none`
if the block is absent or malformed); `topics` = the texts of the
`a.badge.badge-rubric.me-2` anchors in document order. -/
structure ArticlePage where
  body : Option (List String)
  title : Option String
  ldjson : Option (String × String)
  topics : List String
deriving DecidableEq

/-- Outcome of `make_request` for an article URL, carrying the parsed
page on response. -/
inductive ArtFetch where
  | response (status : Nat) (page : ArticlePage)
  | transport
deriving DecidableEq

/-- The `try` block of `HTMLParser._fill_article_with_text`
(scraper.py:398-403): locate `div.news-fulltext`, concatenate each
paragraph followed by a newline; `find` returning `None` makes the
chained `find_all` raise `AttributeError`. -/
def fillTextOnce (page : ArticlePage) (a : Article) : Except PyErr Article :=
  match page.body with
  | some ps => .ok { a with text := String.join (ps.map fun p => p ++ "\n") }
  | none => .error .attributeError

/-- `HTMLParser._fill_article_with_text` (scraper.py:391-409): the
`except AttributeError` handler re-runs the identical lookup
(scraper.py:404-409), so a missing body container raises
`AttributeError` again — the fallback can never recover. -/
def fillText (page : ArticlePage) (a : Article) : Except PyErr Article :=
  match fillTextOnce page a with
  | .ok a1 => .ok a1
  | .error _ => fillTextOnce page a

/-- `HTMLParser._fill_article_with_meta_information` (scraper.py:411-427):
title from `h1.news-title`, author and raw date from the ld+json script
block, date through `unify_date_format`, topics from the rubric badges.
A missing element raises `AttributeError`; a date not matching the fixed
format raises `ValueError`.  (The source mutates `self.article` field by
field; since any failure escapes `parse`, the caller observes either the
exception or the fully updated record, which this pure version returns.) -/
def fillMeta (page : ArticlePage) (a : Article) : Except PyErr Article :=
  match page.title with
  | none => .error .attributeError
  | some t =>
    match page.ldjson with
    | none => .error .attributeError
    | some (authorName, rawDate) =>
      match unify_date_format rawDate.data with
      | none => .error .valueError
      | some dt =>
        .ok { a with title := t, author := [authorName], date := some dt,
                     topics := page.topics }

/-- `HTMLParser.parse` (scraper.py:442-454): fetch the article URL; on
status 200 fill text then metadata and return `self.article`; on any
other status return the untouched record; a transport exception
propagates. -/
def parseArticle (fetchA : String → ArtFetch) (url : String) (id : Nat) :
    Except PyErr Article :=
  match fetchA url with
  | .transport => .error .transportError
  | .response status page =>
    if status = 200 then
      match fillText page { url := url, article_id := id } with
      | .error e => .error e
      | .ok a1 =>
        match fillMeta page a1 with
        | .error e => .error e
        | .ok a2 => .ok a2
    else .ok { url := url, article_id := id }

/-- The extraction loop of `main` (scraper.py:480-485):
`for i, full_url in enumerate(crawler.urls, start=1): parser.parse()`.
There is no `try` around `parse`, so the first failing article aborts the
loop and the exception escapes `main`. -/
def mainLoop (fetchA : String → ArtFetch) : List String → Nat → Except PyErr (List Article)
  | [], _ => .ok []
  | u :: rest, i =>
    match parseArticle fetchA u i with
    | .error e => .error e
    | .ok a =>
      match mainLoop fetchA rest (i + 1) with
      | .error e => .error e
      | .ok as => .ok (a :: as)

/-- `main` (scraper.py:473-486): discovery (`crawler.find_articles()`)
runs to completion first, then the extraction loop over the discovered
frontier.  The outer error is an exception escaping discovery; the inner
component is the extraction outcome. -/
def mainModel (fetch : String → FetchOutcome) (fetchA : String → ArtFetch) (cfg : Config) :
    Except Unit (List String × Except PyErr (List Article)) :=
  match findArticles fetch cfg with
  | .error e => .error e
  | .ok urls => .ok (urls, mainLoop fetchA urls 1)

/-- The whitespace set of Python `re`'s `\\s` over ASCII; `\\S` matches
the complement.  (Unicode whitespace beyond ASCII is outside the scope
of the claims.) -/
def pyIsSpace (c : Char) : Bool :=
  c = ' ' ∨ c = '\t' ∨ c = '\n' ∨ c = '\r' ∨ c = '\x0b' ∨ c = '\x0c'

/-- Match a literal character run of the regex, then continue with `k`. -/
def matchSeq : List Char → (List Char → Bool) → List Char → Bool
  | [], k, s => k s
  | _ :: _, _, [] => false
  | c :: p, k, x :: s => x = c && matchSeq p k s

/-- `\\S+` at the end of a regex alternative: at least one non-whitespace
character must follow; nothing constrains the rest of the string (the
greedy repetition has nothing after it to satisfy). -/
def matchSPlus : List Char → Bool
  | [] => false
  | c :: _ => !pyIsSpace c

/-- `s?`: the greedy optional character of `https?` — try consuming an
`s` first, fall back to not consuming it. -/
def matchOptS (k : List Char → Bool) : List Char → Bool
  | [] => k []
  | x :: s2 => ((x = 's') && k s2) || k (x :: s2)

/-- `re.match(r'https?://\\S+|www\\.\\S+', url)` (scraper.py:29-30):
anchored at the start, alternatives tried left to right. -/
def pyMatch (s : List Char) : Bool :=
  matchSeq ['h', 't', 't', 'p'] (matchOptS (matchSeq [':', '/', '/'] matchSPlus)) s ||
  matchSeq ['w', 'w', 'w', '.'] matchSPlus s

/-- `is_valid_url(url)` (scraper.py:23-32): `True` exactly when the
regex matches at position 0. -/
def is_valid_url (s : List Char) : Bool := pyMatch s

/-- The JSON values that can appear in a field of the crawler config
file, as seen through Python's `isinstance` checks (`bool` is a subclass
of `int`; dict content is never inspected beyond `isinstance`). -/
inductive PyVal where
  | vint (n : Int)
  | vbool (b : Bool)
  | vstr (s : String)
  | vlist (xs : List PyVal)
  | vdict
  | vother

/-- `isinstance(v, int)` — true for Python `bool` values as well. -/
def pyIsInt : PyVal → Bool
  | .vint _ => true
  | .vbool _ => true
  | _ => false

/-- The integer value of an `isinstance(v, int)` value (`True` is 1,
`False` is 0). -/
def pyIntVal : PyVal → Int
  | .vint n => n
  | .vbool b => if b then 1 else 0
  | _ => 0

/-- `isinstance(v, bool)`. -/
def pyIsBool : PyVal → Bool
  | .vbool _ => true
  | _ => false

/-- `isinstance(v, str)`. -/
def pyIsStr : PyVal → Bool
  | .vstr _ => true
  | _ => false

/-- `isinstance(v, dict)`. -/
def pyIsDict : PyVal → Bool
  | .vdict => true
  | _ => false

/-- `isinstance(v, list) and all(isinstance(x, str) for x in v)`. -/
def pyIsStrList : PyVal → Bool
  | .vlist xs => xs.all pyIsStr
  | _ => false

/-- The strings of a list value (total on the values passing
`pyIsStrList`). -/
def strListOf : PyVal → List String
  | .vlist xs => xs.filterMap fun x => match x with | .vstr t => some t | _ => none
  | _ => []

/-- The seven fields `_validate_config_content` reads from the config
JSON (scraper.py:138-174). -/
structure ConfigDict where
  seed_urls : PyVal
  total_articles : PyVal
  headers : PyVal
  encoding : PyVal
  timeout : PyVal
  should_verify : PyVal
  headless : PyVal

/-- The exception classes `_validate_config_content` can raise
(scraper.py:34-89). -/
inductive ConfigError where
  | incorrectSeedURL
  | numberOfArticlesOutOfRange
  | incorrectNumberOfArticles
  | incorrectHeaders
  | incorrectEncoding
  | incorrectTimeout
  | incorrectVerify
deriving DecidableEq

/-- `Config._validate_config_content` (scraper.py:134-174): the checks in
source order; the first failing check raises.  `timeout not in range(61)`
for an `isinstance(..., int)` value means the integer is outside 0..60
(for `True`/`False` the values 1/0 are tested).  The function performs no
network access — `Config.__init__` runs it before any crawling starts. -/
def validateConfig (c : ConfigDict) : Except ConfigError Unit :=
  if ¬ (pyIsStrList c.seed_urls = true) then .error .incorrectSeedURL
  else if ¬ ((strListOf c.seed_urls).all (fun t => is_valid_url t.data) = true) then
    .error .incorrectSeedURL
  else if ¬ (pyIsInt c.total_articles = true ∧ 0 ≤ pyIntVal c.total_articles) ∨
      pyIsBool c.total_articles = true then
    .error .incorrectNumberOfArticles
  else if 150 < pyIntVal c.total_articles then .error .numberOfArticlesOutOfRange
  else if ¬ (pyIsDict c.headers = true) then .error .incorrectHeaders
  else if ¬ (pyIsStr c.encoding = true) then .error .incorrectEncoding
  else if ¬ (pyIsInt c.timeout = true ∧ 0 ≤ pyIntVal c.timeout ∧ pyIntVal c.timeout ≤ 60) then
    .error .incorrectTimeout
  else if ¬ (pyIsBool c.should_verify = true) then .error .incorrectVerify
  else if ¬ (pyIsBool c.headless = true) then .error .incorrectVerify
  else .ok ()

theorem firstUnseen_spec {urls seeds : List String} :
    ∀ cs : List String, firstUnseen urls seeds cs ≠ "" →
      firstUnseen urls seeds cs ∉ urls ∧ firstUnseen urls seeds cs ∉ seeds := by
  intro cs
  induction cs with
  | nil => simp [firstUnseen]
  | cons h t ih =>
    intro hne
    by_cases hmem : h ∈ urls ∨ h ∈ seeds
    · rw [firstUnseen, if_pos hmem] at hne ⊢
      exact ih hne
    · rw [firstUnseen, if_neg hmem] at hne ⊢
      push_neg at hmem
      exact hmem

theorem extractUrl_spec {page urls seeds : List String}
    (hne : extractUrl page urls seeds ≠ "") :
    extractUrl page urls seeds ∉ urls ∧ extractUrl page urls seeds ∉ seeds :=
  firstUnseen_spec _ hne

/-- The frontier invariant of the iterative crawler. -/
def FrontierInv (num : Nat) (seeds urls : List String) : Prop :=
  urls.length ≤ num ∧ urls.Nodup ∧ ∀ u ∈ urls, u ∉ seeds

theorem crawlGo_inv {page seeds : List String} :
    ∀ (k : Nat) (urls : List String), urls.Nodup → (∀ u ∈ urls, u ∉ seeds) →
      (crawlGo page seeds urls k).Nodup ∧
      (∀ u ∈ crawlGo page seeds urls k, u ∉ seeds) ∧
      (crawlGo page seeds urls k).length ≤ urls.length + k := by
  intro k
  induction k with
  | zero => intro urls h1 h2; simpa [crawlGo] using ⟨h1, h2⟩
  | succ k ih =>
    intro urls h1 h2
    rw [crawlGo]
    by_cases he : extractUrl page urls seeds = ""
    · rw [if_pos he]
      exact ⟨h1, h2, by omega⟩
    · rw [if_neg he]
      obtain ⟨hnu, hns⟩ := extractUrl_spec he
      have h1' : (urls ++ [extractUrl page urls seeds]).Nodup := by
        simp [List.nodup_append, h1, hnu]
      have h2' : ∀ u ∈ urls ++ [extractUrl page urls seeds], u ∉ seeds := by
        intro u hu
        rcases List.mem_append.1 hu with hu | hu
        · exact h2 u hu
        · simp at hu; subst hu; exact hns
      obtain ⟨i1, i2, i3⟩ := ih (urls ++ [extractUrl page urls seeds]) h1' h2'
      refine ⟨i1, i2, ?_⟩
      simp at i3
      omega

theorem crawlLoop_inv {page seeds : List String} {num : Nat} {urls : List String}
    (h : FrontierInv num seeds urls) : FrontierInv num seeds (crawlLoop page seeds num urls) := by
  obtain ⟨hlen, h1, h2⟩ := h
  obtain ⟨i1, i2, i3⟩ := @crawlGo_inv page seeds (num - urls.length) urls h1 h2
  refine ⟨?_, i1, i2⟩
  show (crawlGo page seeds urls (num - urls.length)).length ≤ num
  omega

theorem findArticlesFrom_inv {fetch : String → FetchOutcome} {seeds : List String} {num : Nat} :
    ∀ (rest urls res : List String), FrontierInv num seeds urls →
      findArticlesFrom fetch seeds num rest urls = .ok res → FrontierInv num seeds res := by
  intro rest
  induction rest with
  | nil =>
    intro urls res h heq
    rw [findArticlesFrom] at heq
    cases heq
    exact h
  | cons s t ih =>
    intro urls res h heq
    rw [findArticlesFrom] at heq
    cases hf : fetch s with
    | transport => simp only [hf] at heq; exact Except.noConfusion heq
    | response status page =>
      simp only [hf] at heq
      by_cases hs : status = 200
      · rw [if_pos hs] at heq
        exact ih _ _ (crawlLoop_inv h) heq
      · rw [if_neg hs] at heq
        exact ih _ _ h heq

/-- C1: for every configuration and every fetch behaviour, when
`Crawler.find_articles` completes, the frontier `Crawler.urls` has length
at most the configured target article count, contains no duplicate URLs,
and contains no seed URL. -/
theorem c1_frontier_invariants (fetch : String → FetchOutcome) (cfg : Config)
    (urls : List String) (h : findArticles fetch cfg = .ok urls) :
    urls.length ≤ cfg.num_articles ∧ urls.Nodup ∧ ∀ u ∈ urls, u ∉ cfg.seed_urls :=
  findArticlesFrom_inv cfg.seed_urls [] urls ⟨by simp, by simp, by simp⟩ h

/-- C1 witness: a concrete crawl (one seed page carrying three matching
anchors, one of them a duplicate, target count 2) on which the theorem's
hypothesis is discharged by evaluation. -/
theorem c1_frontier_invariants_witness :
    ([("https://gtrksakha.ru/news/2024a" : String), "https://gtrksakha.ru/news/2024b"].length ≤ 2 ∧
      [("https://gtrksakha.ru/news/2024a" : String), "https://gtrksakha.ru/news/2024b"].Nodup ∧
      ∀ u ∈ [("https://gtrksakha.ru/news/2024a" : String), "https://gtrksakha.ru/news/2024b"],
        u ∉ [("https://s.example" : String)]) :=
  c1_frontier_invariants
    (fun _ => .response 200
      ["https://gtrksakha.ru/news/2024a", "https://other.example/x",
       "https://gtrksakha.ru/news/2024a", "https://gtrksakha.ru/news/2024b",
       "https://gtrksakha.ru/news/2024c"])
    ⟨["https://s.example"], 2⟩ _ rfl

theorem replay_append (t1 t2 : List Ev) : ∀ st : St, replay st (t1 ++ t2) = replay (replay st t1) t2 := by
  induction t1 with
  | nil => intro st; rfl
  | cons e t ih => intro st; simp only [List.cons_append, replay]; exact ih _

theorem syncFrom_append {st : St} {t1 : List Ev} (h1 : SyncFrom st t1) :
    ∀ t2, SyncFrom (replay st t1) t2 → SyncFrom st (t1 ++ t2) := by
  induction h1 with
  | nil st =>
    intro t2 h2
    simpa [replay] using h2
  | load st tr _ ih =>
    intro t2 h2
    rw [List.cons_append]
    refine SyncFrom.load st (tr ++ t2) (ih t2 ?_)
    simpa [replay, stepEv] using h2
  | request st u tr _ ih =>
    intro t2 h2
    rw [List.cons_append]
    refine SyncFrom.request st u (tr ++ t2) (ih t2 ?_)
    simpa [replay, stepEv] using h2
  | appendPersist st u tr _ ih =>
    intro t2 h2
    rw [List.cons_append, List.cons_append]
    refine SyncFrom.appendPersist st u (tr ++ t2) (ih t2 ?_)
    simpa [replay, stepEv] using h2

theorem runRec_sync (fetch : String → FetchOutcome) (cfg : Config) :
    ∀ (f : Nat) (m : RMode),
      SyncFrom m.st (runRec fetch cfg f m).2 ∧
      ∀ st', (runRec fetch cfg f m).1 = some st' → replay m.st (runRec fetch cfg f m).2 = st' := by
  intro f
  induction f with
  | zero =>
    intro m
    exact ⟨SyncFrom.nil _, fun st' h => by simp [runRec] at h⟩
  | succ f ih =>
    intro m
    rcases m with st | ⟨rest, st⟩ | ⟨page, st⟩
    · -- find
      by_cases hn : cfg.num_articles ≤ st.file.length
      · simp only [runRec, RMode.st, if_pos hn]
        refine ⟨SyncFrom.load st [] (SyncFrom.nil _), ?_⟩
        intro st' h
        cases h
        simp [replay, stepEv]
      · simp only [runRec, RMode.st, if_neg hn]
        obtain ⟨hsync, hrep⟩ := ih (.seeds cfg.seed_urls ⟨st.file, st.file⟩)
        rcases hr : runRec fetch cfg f (.seeds cfg.seed_urls ⟨st.file, st.file⟩) with ⟨r, tr⟩
        rw [hr] at hsync hrep
        simp only [RMode.st] at hsync hrep
        refine ⟨SyncFrom.load st tr hsync, ?_⟩
        intro st' h
        simp only [replay, stepEv]
        exact hrep st' h
    · -- seeds
      rcases rest with _ | ⟨s, rest⟩
      · simp only [runRec, RMode.st]
        refine ⟨SyncFrom.nil _, ?_⟩
        intro st' h
        cases h
        rfl
      · cases hfs : fetch s with
        | transport =>
          simp only [runRec, RMode.st, hfs]
          refine ⟨SyncFrom.request st s [] (SyncFrom.nil _), ?_⟩
          intro st' h
          cases h
        | response status page =>
          by_cases hst : status = 200
          · obtain ⟨hsync1, hrep1⟩ := ih (.whileM page st)
            rcases hr1 : runRec fetch cfg f (.whileM page st) with ⟨r1, tr1⟩
            rw [hr1] at hsync1 hrep1
            simp only [RMode.st] at hsync1 hrep1
            rcases r1 with _ | st1
            · simp only [runRec, RMode.st, hfs, if_pos hst, hr1]
              refine ⟨SyncFrom.request st s tr1 hsync1, ?_⟩
              intro st' h
              cases h
            · obtain ⟨hsync2, hrep2⟩ := ih (.seeds rest st1)
              rcases hr2 : runRec fetch cfg f (.seeds rest st1) with ⟨r2, tr2⟩
              rw [hr2] at hsync2 hrep2
              simp only [RMode.st] at hsync2 hrep2
              simp only [runRec, RMode.st, hfs, if_pos hst, hr1, hr2]
              refine ⟨SyncFrom.request st s (tr1 ++ tr2)
                (syncFrom_append hsync1 tr2 (by rw [hrep1 st1 rfl]; exact hsync2)), ?_⟩
              intro st' h
              simp only [replay, stepEv]
              rw [replay_append, hrep1 st1 rfl]
              exact hrep2 st' h
          · simp only [runRec, RMode.st, hfs, if_neg hst]
            obtain ⟨hsync2, hrep2⟩ := ih (.seeds rest st)
            rcases hr2 : runRec fetch cfg f (.seeds rest st) with ⟨r2, tr2⟩
            rw [hr2] at hsync2 hrep2
            simp only [RMode.st] at hsync2 hrep2
            refine ⟨SyncFrom.request st s tr2 hsync2, ?_⟩
            intro st' h
            simp only [replay, stepEv]
            exact hrep2 st' h
    · -- whileM
      by_cases hlt : st.urls.length < cfg.num_articles
      · by_cases he : extractUrl page st.urls cfg.seed_urls = ""
        · simp only [runRec, RMode.st, if_pos hlt, if_pos he]
          refine ⟨SyncFrom.nil _, ?_⟩
          intro st' h
          cases h
          rfl
        · obtain ⟨hsync1, hrep1⟩ := ih (.find ⟨st.urls ++ [extractUrl page st.urls cfg.seed_urls],
            st.urls ++ [extractUrl page st.urls cfg.seed_urls]⟩)
          rcases hr1 : runRec fetch cfg f (.find ⟨st.urls ++ [extractUrl page st.urls cfg.seed_urls],
            st.urls ++ [extractUrl page st.urls cfg.seed_urls]⟩) with ⟨r1, tr1⟩
          rw [hr1] at hsync1 hrep1
          simp only [RMode.st] at hsync1 hrep1
          rcases r1 with _ | st2
          · simp only [runRec, RMode.st, if_pos hlt, if_neg he, hr1]
            refine ⟨SyncFrom.appendPersist st _ tr1 hsync1, ?_⟩
            intro st' h
            cases h
          · obtain ⟨hsync2, hrep2⟩ := ih (.whileM page st2)
            rcases hr2 : runRec fetch cfg f (.whileM page st2) with ⟨r2, tr2⟩
            rw [hr2] at hsync2 hrep2
            simp only [RMode.st] at hsync2 hrep2
            simp only [runRec, RMode.st, if_pos hlt, if_neg he, hr1, hr2]
            refine ⟨SyncFrom.appendPersist st _ (tr1 ++ tr2)
              (syncFrom_append hsync1 tr2 (by rw [hrep1 st2 rfl]; exact hsync2)), ?_⟩
            intro st' h
            simp only [replay, stepEv]
            rw [replay_append, hrep1 st2 rfl]
            exact hrep2 st' h
      · simp only [runRec, RMode.st, if_neg hlt]
        refine ⟨SyncFrom.nil _, ?_⟩
        intro st' h
        cases h
        rfl

theorem syncFrom_append_next {st : St} {tr : List Ev} (h : SyncFrom st tr) :
    ∀ i u, tr[i]? = some (Ev.append u) →
      tr[i + 1]? = some (Ev.persist ((replay st (tr.take (i + 1))).urls)) := by
  induction h with
  | nil st => intro i u hi; simp at hi
  | load st tr _ ih =>
    intro i u hi
    cases i with
    | zero => simp at hi
    | succ j =>
      simp only [List.getElem?_cons_succ] at hi ⊢
      rw [List.take_succ_cons]
      simp only [replay, stepEv]
      exact ih j u hi
  | request st w tr _ ih =>
    intro i u hi
    cases i with
    | zero => simp at hi
    | succ j =>
      simp only [List.getElem?_cons_succ] at hi ⊢
      rw [List.take_succ_cons]
      simp only [replay, stepEv]
      exact ih j u hi
  | appendPersist st w tr _ ih =>
    intro i u hi
    match i with
    | 0 =>
      simp only [List.getElem?_cons_zero, Option.some_inj, Ev.append.injEq] at hi
      subst hi
      simp [List.take_succ_cons, replay, stepEv]
    | 1 => simp at hi
    | j + 2 =>
      simp only [List.getElem?_cons_succ] at hi ⊢
      rw [List.take_succ_cons, List.take_succ_cons]
      simp only [replay, stepEv]
      exact ih j u hi

theorem syncFrom_file_eq {st : St} {tr : List Ev} (h : SyncFrom st tr) :
    st.urls = st.file →
    ∀ i e, tr[i]? = some e → (∀ u, e ≠ Ev.append u) →
      (replay st (tr.take (i + 1))).file = (replay st (tr.take (i + 1))).urls := by
  induction h with
  | nil st => intro _ i e hi _; simp at hi
  | load st tr _ ih =>
    intro _ i e hi hne
    cases i with
    | zero => simp [List.take_succ_cons, replay, stepEv]
    | succ j =>
      simp only [List.getElem?_cons_succ] at hi
      rw [List.take_succ_cons]
      simp only [replay, stepEv]
      exact ih rfl j e hi hne
  | request st w tr _ ih =>
    intro hf i e hi hne
    cases i with
    | zero =>
      simp only [List.take_succ_cons, List.take_zero, replay, stepEv]
      exact hf.symm
    | succ j =>
      simp only [List.getElem?_cons_succ] at hi
      rw [List.take_succ_cons]
      simp only [replay, stepEv]
      exact ih hf j e hi hne
  | appendPersist st w tr _ ih =>
    intro hf i e hi hne
    match i with
    | 0 =>
      simp only [List.getElem?_cons_zero, Option.some_inj] at hi
      exact (hne w hi.symm).elim
    | 1 => simp [List.take_succ_cons, replay, stepEv]
    | j + 2 =>
      simp only [List.getElem?_cons_succ] at hi
      rw [List.take_succ_cons, List.take_succ_cons]
      simp only [replay, stepEv]
      exact ih rfl j e hi hne

theorem syncFrom_cons_load_file_eq {st0 : St} {tr' : List Ev}
    (h : SyncFrom ⟨st0.file, st0.file⟩ tr') :
    ∀ i e, (Ev.load st0.file :: tr')[i]? = some e → (∀ u, e ≠ Ev.append u) →
      (replay st0 ((Ev.load st0.file :: tr').take (i + 1))).file =
        (replay st0 ((Ev.load st0.file :: tr').take (i + 1))).urls := by
  intro i e hi hne
  cases i with
  | zero => simp [List.take_succ_cons, replay, stepEv]
  | succ j =>
    simp only [List.getElem?_cons_succ] at hi
    rw [List.take_succ_cons]
    simp only [replay, stepEv]
    exact syncFrom_file_eq h rfl j e hi hne

/-- C2: in every run of the persistent crawler (`CrawlerRecursive.find_articles`,
from any starting state, any fetch behaviour and any fuel), every single
append of a URL to the in-memory frontier is immediately followed by a
synchronous rewrite of the durable frontier file whose content is exactly
the in-memory frontier at that moment; and at every observation point
that is not strictly between an append and its persist (i.e. after any
other event), the durable file content equals the in-memory frontier —
never ahead, never behind. -/
theorem c2_durable_mirror (fetch : String → FetchOutcome) (cfg : Config) (f : Nat) (st0 : St) :
    (∀ i u, (runRec fetch cfg f (.find st0)).2[i]? = some (Ev.append u) →
        (runRec fetch cfg f (.find st0)).2[i + 1]? =
          some (Ev.persist ((replay st0 ((runRec fetch cfg f (.find st0)).2.take (i + 1))).urls))) ∧
    (∀ i e, (runRec fetch cfg f (.find st0)).2[i]? = some e → (∀ u, e ≠ Ev.append u) →
        (replay st0 ((runRec fetch cfg f (.find st0)).2.take (i + 1))).file =
          (replay st0 ((runRec fetch cfg f (.find st0)).2.take (i + 1))).urls) := by
  refine ⟨fun i u =>
    syncFrom_append_next (by simpa [RMode.st] using (runRec_sync fetch cfg f (.find st0)).1) i u, ?_⟩
  cases f with
  | zero =>
    intro i e hi _
    simp [runRec] at hi
  | succ f =>
    by_cases hn : cfg.num_articles ≤ st0.file.length
    · simp only [runRec, if_pos hn]
      exact syncFrom_cons_load_file_eq (SyncFrom.nil _)
    · simp only [runRec, if_neg hn]
      exact syncFrom_cons_load_file_eq
        (by simpa [RMode.st] using
          (runRec_sync fetch cfg f (.seeds cfg.seed_urls ⟨st0.file, st0.file⟩)).1)

/-- C2 witness: a concrete completed run (one seed, one discovered URL);
the append at trace position 2 is followed at position 3 by a persist of
exactly the replayed in-memory frontier. -/
theorem c2_durable_mirror_witness :
    (runRec (fun _ => FetchOutcome.response 200 ["https://gtrksakha.ru/news/2030"])
        ⟨["https://seed.example"], 1⟩ 6 (.find ⟨[], []⟩)).2[2 + 1]? =
      some (Ev.persist ((replay ⟨[], []⟩
        ((runRec (fun _ => FetchOutcome.response 200 ["https://gtrksakha.ru/news/2030"])
          ⟨["https://seed.example"], 1⟩ 6 (.find ⟨[], []⟩)).2.take (2 + 1))).urls)) :=
  (c2_durable_mirror (fun _ => FetchOutcome.response 200 ["https://gtrksakha.ru/news/2030"])
      ⟨["https://seed.example"], 1⟩ 6 ⟨[], []⟩).1 2 "https://gtrksakha.ru/news/2030" (by decide)

/-- C3: whenever the durable frontier file already holds at least
target-count URLs, `CrawlerRecursive.find_articles` loads it and returns
immediately: the in-memory frontier becomes exactly the file content and
the emitted trace contains no HTTP request — so a second invocation after
a completed crawl performs no network activity. -/
theorem c3_resume_no_network (fetch : String → FetchOutcome) (cfg : Config) (st0 : St) (f : Nat)
    (h : cfg.num_articles ≤ st0.file.length) :
    runRec fetch cfg (f + 1) (.find st0) = (some ⟨st0.file, st0.file⟩, [Ev.load st0.file]) ∧
    requestsOf (runRec fetch cfg (f + 1) (.find st0)).2 = [] := by
  refine ⟨by simp only [runRec, if_pos h], ?_⟩
  simp only [runRec, if_pos h]
  rfl

/-- C3 witness: a file holding the 2 target URLs; the crawler returns them
and requests nothing, for any fetch behaviour (here one that would fail). -/
theorem c3_resume_no_network_witness :
    runRec (fun _ => FetchOutcome.transport) ⟨["https://seed.example"], 2⟩ 1
        (.find ⟨[], ["https://gtrksakha.ru/news/2030", "https://gtrksakha.ru/news/2031"]⟩) =
      (some ⟨["https://gtrksakha.ru/news/2030", "https://gtrksakha.ru/news/2031"],
             ["https://gtrksakha.ru/news/2030", "https://gtrksakha.ru/news/2031"]⟩,
       [Ev.load ["https://gtrksakha.ru/news/2030", "https://gtrksakha.ru/news/2031"]]) ∧
    requestsOf (runRec (fun _ => FetchOutcome.transport) ⟨["https://seed.example"], 2⟩ 1
        (.find ⟨[], ["https://gtrksakha.ru/news/2030", "https://gtrksakha.ru/news/2031"]⟩)).2 = [] :=
  c3_resume_no_network (fun _ => FetchOutcome.transport) ⟨["https://seed.example"], 2⟩
    ⟨[], ["https://gtrksakha.ru/news/2030", "https://gtrksakha.ru/news/2031"]⟩ 0 (by decide)

theorem runRec_enough_fuel (fetch : String → FetchOutcome) (cfg : Config)
    (hT : ∀ u, fetch u ≠ .transport) :
    ∀ (f : Nat) (m : RMode), fuelOk cfg m f →
      ∃ st' tr, runRec fetch cfg f m = (some st', tr) ∧
        (m.st).file.length ≤ st'.file.length ∧ st'.urls = st'.file := by
  intro f
  induction f with
  | zero =>
    intro m hm
    exfalso
    rcases m with st | ⟨rest, st⟩ | ⟨page, st⟩ <;> simp [fuelOk] at hm
  | succ f ih =>
    intro m hm
    rcases m with st | ⟨rest, st⟩ | ⟨page, st⟩
    · -- find
      simp only [fuelOk] at hm
      by_cases hn : cfg.num_articles ≤ st.file.length
      · exact ⟨⟨st.file, st.file⟩, [Ev.load st.file],
          by simp only [runRec, if_pos hn], le_refl _, rfl⟩
      · have hok : fuelOk cfg (.seeds cfg.seed_urls ⟨st.file, st.file⟩) f := by
          simp only [fuelOk]
          exact ⟨by omega, by trivial⟩
        obtain ⟨st', tr, heq, hmon, hinv⟩ := ih _ hok
        simp only [RMode.st] at hmon
        refine ⟨st', Ev.load st.file :: tr, ?_, ?_, hinv⟩
        · simp only [runRec, if_neg hn, heq]
        · simpa [RMode.st] using hmon
    · -- seeds
      simp only [fuelOk] at hm
      obtain ⟨harith, hufe⟩ := hm
      rcases rest with _ | ⟨s, rest⟩
      · exact ⟨st, [], by simp only [runRec], le_refl _, hufe⟩
      · cases hfs : fetch s with
        | transport => exact absurd hfs (hT s)
        | response status page =>
          by_cases hst : status = 200
          · have hok1 : fuelOk cfg (.whileM page st) f := by
              simp only [fuelOk]
              exact ⟨by simp only [List.length_cons] at harith; omega, hufe⟩
            obtain ⟨st1, tr1, heq1, hmon1, hinv1⟩ := ih _ hok1
            simp only [RMode.st] at hmon1
            have hmul : (cfg.seed_urls.length + 2) * (cfg.num_articles - st1.file.length) ≤
                (cfg.seed_urls.length + 2) * (cfg.num_articles - st.file.length) :=
              Nat.mul_le_mul_left _ (by omega)
            have hok2 : fuelOk cfg (.seeds rest st1) f := by
              simp only [fuelOk]
              refine ⟨?_, hinv1⟩
              simp only [List.length_cons] at harith
              omega
            obtain ⟨st2, tr2, heq2, hmon2, hinv2⟩ := ih _ hok2
            simp only [RMode.st] at hmon2
            refine ⟨st2, Ev.request s :: (tr1 ++ tr2), ?_, ?_, hinv2⟩
            · simp only [runRec, hfs, if_pos hst, heq1, heq2]
            · simp only [RMode.st]
              omega
          · have hok2 : fuelOk cfg (.seeds rest st) f := by
              simp only [fuelOk]
              refine ⟨?_, hufe⟩
              simp only [List.length_cons] at harith
              omega
            obtain ⟨st2, tr2, heq2, hmon2, hinv2⟩ := ih _ hok2
            simp only [RMode.st] at hmon2
            refine ⟨st2, Ev.request s :: tr2, ?_, ?_, hinv2⟩
            · simp only [runRec, hfs, if_neg hst, heq2]
            · simp only [RMode.st]
              omega
    · -- whileM
      simp only [fuelOk] at hm
      obtain ⟨harith, hufe⟩ := hm
      have hL : st.urls.length = st.file.length := by rw [hufe]
      by_cases hlt : st.urls.length < cfg.num_articles
      · by_cases he : extractUrl page st.urls cfg.seed_urls = ""
        · exact ⟨st, [], by simp only [runRec, if_pos hlt, if_pos he], le_refl _, hufe⟩
        · have hsplit : (cfg.seed_urls.length + 2) * (cfg.num_articles - st.file.length) =
              (cfg.seed_urls.length + 2) * (cfg.num_articles - (st.file.length + 1)) +
                (cfg.seed_urls.length + 2) := by
            rw [show cfg.num_articles - st.file.length =
                  cfg.num_articles - (st.file.length + 1) + 1 by omega,
                Nat.mul_add, Nat.mul_one]
          have hok1 : fuelOk cfg (.find ⟨st.urls ++ [extractUrl page st.urls cfg.seed_urls],
              st.urls ++ [extractUrl page st.urls cfg.seed_urls]⟩) f := by
            simp only [fuelOk, List.length_append, List.length_cons, List.length_nil,
              Nat.zero_add, hL]
            omega
          obtain ⟨st2, tr1, heq1, hmon1, hinv1⟩ := ih _ hok1
          simp only [RMode.st, List.length_append, List.length_cons, List.length_nil,
            Nat.zero_add, hL] at hmon1
          have hmul : (cfg.seed_urls.length + 2) * (cfg.num_articles - st2.file.length) ≤
              (cfg.seed_urls.length + 2) *
                (cfg.num_articles - (st.file.length + 1)) :=
            Nat.mul_le_mul_left _ (by omega)
          have hok2 : fuelOk cfg (.whileM page st2) f := by
            simp only [fuelOk]
            exact ⟨by omega, hinv1⟩
          obtain ⟨st3, tr2, heq2, hmon2, hinv2⟩ := ih _ hok2
          simp only [RMode.st] at hmon2
          refine ⟨st3, Ev.append (extractUrl page st.urls cfg.seed_urls) ::
            Ev.persist (st.urls ++ [extractUrl page st.urls cfg.seed_urls]) :: (tr1 ++ tr2),
            ?_, ?_, hinv2⟩
          · simp only [runRec, if_pos hlt, if_neg he, heq1, heq2]
          · simp only [RMode.st]
            omega
      · exact ⟨st, [], by simp only [runRec, if_neg hlt], le_refl _, hufe⟩

theorem crawlLoopF_eq_crawlLoop (page seeds : List String) (num : Nat) :
    ∀ (fuel : Nat) (urls : List String), num - urls.length < fuel →
      crawlLoopF page seeds num urls fuel = some (crawlLoop page seeds num urls) := by
  intro fuel
  induction fuel with
  | zero => intro urls h; omega
  | succ fuel ih =>
    intro urls h
    rw [crawlLoopF]
    by_cases hlt : urls.length < num
    · rw [if_pos hlt]
      by_cases he : extractUrl page urls seeds = ""
      · rw [if_pos he, crawlLoop,
          show num - urls.length = (num - urls.length - 1) + 1 by omega, crawlGo, if_pos he]
      · have hlen : num - (urls ++ [extractUrl page urls seeds]).length < fuel := by
          simp only [List.length_append, List.length_cons, List.length_nil]
          omega
        have hlen2 : num - (urls ++ [extractUrl page urls seeds]).length =
            num - urls.length - 1 := by
          simp only [List.length_append, List.length_cons, List.length_nil]
          omega
        have hr : crawlGo page seeds urls (num - urls.length) =
            crawlGo page seeds (urls ++ [extractUrl page urls seeds])
              (num - urls.length - 1) := by
          rw [show num - urls.length = (num - urls.length - 1) + 1 by omega, crawlGo, if_neg he]
          congr 1
        rw [if_neg he, ih _ hlen, crawlLoop, crawlLoop, hlen2, hr]
    · rw [if_neg hlt, crawlLoop, show num - urls.length = 0 by omega, crawlGo]

theorem crawlLoop_no_candidates {page : List String} (h : candidateHrefs page = [])
    (seeds : List String) (num : Nat) : crawlLoop page seeds num [] = [] := by
  rw [crawlLoop]
  cases hnum : num - ([] : List String).length with
  | zero => rw [crawlGo]
  | succ k =>
    rw [crawlGo, if_pos]
    rw [extractUrl, h]
    rfl

theorem findArticlesFrom_no_candidates (fetch : String → FetchOutcome)
    (seeds : List String) (num : Nat) :
    ∀ rest : List String,
      (∀ s ∈ rest, ∃ status page, fetch s = .response status page ∧ candidateHrefs page = []) →
      findArticlesFrom fetch seeds num rest [] = .ok [] := by
  intro rest
  induction rest with
  | nil => intro _; rw [findArticlesFrom]
  | cons s t ih =>
    intro h
    obtain ⟨status, page, hfs, hcand⟩ := h s (by simp)
    rw [findArticlesFrom]
    simp only [hfs]
    by_cases hst : status = 200
    · rw [if_pos hst, crawlLoop_no_candidates hcand]
      exact ih fun x hx => h x (by simp [hx])
    · rw [if_neg hst]
      exact ih fun x hx => h x (by simp [hx])

/-- C8: the crawl terminates for every configuration and fetch behaviour.
(1) The iterative while-loop of `Crawler.find_articles` completes within
`num - len(urls) + 1` iterations (the fueled literal loop agrees with the
total model for any sufficient fuel); (2) if every seed page has no
anchor matching the article-URL shape, `find_articles` returns with an
empty frontier and no error; (3) the self-recursive
`CrawlerRecursive.find_articles` completes within a computable fuel bound
whenever no transport exception interrupts it. -/
theorem c8_termination (fetch : String → FetchOutcome) (cfg : Config) :
    (∀ (page urls : List String) (fuel : Nat), cfg.num_articles - urls.length < fuel →
        crawlLoopF page cfg.seed_urls cfg.num_articles urls fuel =
          some (crawlLoop page cfg.seed_urls cfg.num_articles urls)) ∧
    ((∀ s ∈ cfg.seed_urls, ∃ status page,
        fetch s = .response status page ∧ candidateHrefs page = []) →
      findArticles fetch cfg = .ok []) ∧
    ((∀ u, fetch u ≠ .transport) → ∀ st0 : St, ∃ fuel st' tr,
        runRec fetch cfg fuel (.find st0) = (some st', tr)) := by
  refine ⟨fun page urls fuel h => crawlLoopF_eq_crawlLoop page cfg.seed_urls cfg.num_articles fuel urls h,
    ?_, ?_⟩
  · intro h
    rw [findArticles]
    exact findArticlesFrom_no_candidates fetch cfg.seed_urls cfg.num_articles cfg.seed_urls h
  · intro hT st0
    refine ⟨(cfg.seed_urls.length + 2) * cfg.num_articles + cfg.seed_urls.length + 2, ?_⟩
    have hok : fuelOk cfg (.find st0)
        ((cfg.seed_urls.length + 2) * cfg.num_articles + cfg.seed_urls.length + 2) := by
      simp only [fuelOk]
      have := Nat.mul_le_mul_left (cfg.seed_urls.length + 2)
        (Nat.sub_le cfg.num_articles st0.file.length)
      omega
    obtain ⟨st', tr, heq, _, _⟩ := runRec_enough_fuel fetch cfg hT _ _ hok
    exact ⟨st', tr, heq⟩

/-- C8 witness: a crawl whose single seed answers 404 with an empty page:
the fueled while-loop agrees with the model, the frontier ends empty with
no error, and the recursive crawler completes. -/
theorem c8_termination_witness :
    (crawlLoopF [] ["https://seed.example"] 1 [] 2 =
      some (crawlLoop [] ["https://seed.example"] 1 [])) ∧
    (findArticles (fun _ => FetchOutcome.response 404 []) ⟨["https://seed.example"], 1⟩ =
      .ok []) ∧
    (∃ fuel st' tr, runRec (fun _ => FetchOutcome.response 404 [])
        ⟨["https://seed.example"], 1⟩ fuel (.find ⟨[], []⟩) = (some st', tr)) :=
  ⟨(c8_termination (fun _ => FetchOutcome.response 404 [])
      ⟨["https://seed.example"], 1⟩).1 [] [] 2 (by decide),
   (c8_termination (fun _ => FetchOutcome.response 404 [])
      ⟨["https://seed.example"], 1⟩).2.1 (fun s _ => ⟨404, [], rfl, rfl⟩),
   (c8_termination (fun _ => FetchOutcome.response 404 [])
      ⟨["https://seed.example"], 1⟩).2.2 (fun u h => FetchOutcome.noConfusion h) ⟨[], []⟩⟩

/-- C4 counterexample: the claim says a seed whose fetch fails with a
transport error is skipped and no exception propagates out of
`find_articles`; but `make_request` (scraper.py:251-253) and
`find_articles` contain no `try`, so a transport error propagates — the
run aborts with the exception (`.error ()`) instead of returning a
frontier. -/
theorem c4_transport_propagates_cex :
    findArticles (fun _ => FetchOutcome.transport) ⟨["https://seed.example"], 3⟩ =
      .error () := rfl

/-- C4 (amended): a seed whose fetch returns a non-2xx status is silently
skipped — it contributes zero URLs and the remaining seeds are processed
exactly as if that seed were absent — and when no transport error occurs
no exception propagates out of `find_articles`; a transport error,
however, does propagate. -/
theorem c4_fetch_failure_skipped (fetch : String → FetchOutcome) :
    (∀ (s : String) (rest urls : List String) (seeds : List String) (num status : Nat)
        (page : List String), fetch s = .response status page → status ≠ 200 →
        findArticlesFrom fetch seeds num (s :: rest) urls =
          findArticlesFrom fetch seeds num rest urls) ∧
    (∀ cfg : Config, (∀ u, fetch u ≠ .transport) →
        ∃ urls, findArticles fetch cfg = .ok urls) := by
  constructor
  · intro s rest urls seeds num status page hfs hst
    rw [findArticlesFrom]
    simp only [hfs]
    rw [if_neg hst]
  · intro cfg hT
    have key : ∀ rest acc : List String, ∃ urls,
        findArticlesFrom fetch cfg.seed_urls cfg.num_articles rest acc = .ok urls := by
      intro rest
      induction rest with
      | nil => exact fun acc => ⟨acc, rfl⟩
      | cons s t ih =>
        intro acc
        rw [findArticlesFrom]
        cases hfs : fetch s with
        | transport => exact absurd hfs (hT s)
        | response status page =>
          by_cases hst : status = 200
          · simpa only [hfs, if_pos hst] using ih _
          · simpa only [hfs, if_neg hst] using ih _
    rw [findArticles]
    exact key cfg.seed_urls []

/-- C4 witness: one failing (404) seed followed by one succeeding seed —
the 404 seed contributes nothing, the second seed's articles are found,
and the crawl completes without error. -/
theorem c4_fetch_failure_skipped_witness :
    (findArticlesFrom
        (fun u => if u = "https://bad.example" then FetchOutcome.response 404 []
                  else FetchOutcome.response 200 ["https://gtrksakha.ru/news/2030"])
        ["https://bad.example", "https://good.example"] 1
        ["https://bad.example", "https://good.example"] [] =
      findArticlesFrom
        (fun u => if u = "https://bad.example" then FetchOutcome.response 404 []
                  else FetchOutcome.response 200 ["https://gtrksakha.ru/news/2030"])
        ["https://bad.example", "https://good.example"] 1 ["https://good.example"] []) ∧
    (∃ urls, findArticles
        (fun u => if u = "https://bad.example" then FetchOutcome.response 404 []
                  else FetchOutcome.response 200 ["https://gtrksakha.ru/news/2030"])
        ⟨["https://bad.example", "https://good.example"], 1⟩ = .ok urls) :=
  ⟨(c4_fetch_failure_skipped _).1 "https://bad.example" ["https://good.example"] []
      ["https://bad.example", "https://good.example"] 1 404 [] (by decide) (by decide),
   (c4_fetch_failure_skipped _).2 ⟨["https://bad.example", "https://good.example"], 1⟩
      (fun u => by by_cases h : u = "https://bad.example" <;> simp [h])⟩

theorem dChar_toNat {a : Nat} (h : a ≤ 9) : (dChar a).toNat = 48 + a := by
  interval_cases a <;> rfl

theorem isDig_dChar {a : Nat} (h : a ≤ 9) : isDig (dChar a) = true := by
  simp only [isDig, dChar_toNat h, decide_eq_true_eq]
  omega

theorem dv_dChar {a : Nat} (h : a ≤ 9) : dv (dChar a) = a := by
  simp only [dv, dChar_toNat h]
  omega

theorem dChar_ne (a : Nat) (h : a ≤ 9) (c : Char) (hc : ¬(48 ≤ c.toNat ∧ c.toNat ≤ 57)) :
    dChar a ≠ c := by
  intro he
  apply hc
  rw [← he, dChar_toNat h]
  omega

theorem dChar_eq_zero_iff {a : Nat} (h : a ≤ 9) : dChar a = '0' ↔ a = 0 := by
  constructor
  · intro he
    have h2 := congrArg Char.toNat he
    rw [dChar_toNat h] at h2
    have h3 : ('0' : Char).toNat = 48 := rfl
    omega
  · rintro rfl
    rfl

theorem dChar_eq_nine_iff {a : Nat} (h : a ≤ 9) : dChar a = '9' ↔ a = 9 := by
  constructor
  · intro he
    have h2 := congrArg Char.toNat he
    rw [dChar_toNat h] at h2
    have h3 : ('9' : Char).toNat = 57 := rfl
    omega
  · rintro rfl
    rfl

theorem litChar_cons_self (c : Char) (rest : List Char) : litChar c (c :: rest) = some rest := by
  simp [litChar]

theorem litChar_cons_ne {c x : Char} (h : x ≠ c) (rest : List Char) :
    litChar c (x :: rest) = none := by
  simp [litChar, h]

theorem litT_cons_T (rest : List Char) : litT ('T' :: rest) = some rest := by
  simp [litT]

theorem litT_cons_digit (a : Nat) (h : a ≤ 9) (rest : List Char) :
    litT (dChar a :: rest) = none := by
  have h1 : dChar a ≠ 'T' := dChar_ne a h 'T' (by decide)
  have h2 : dChar a ≠ 't' := dChar_ne a h 't' (by decide)
  simp [litT, h1, h2]

theorem findSome?_cons_of_some {α β : Type} {f : α → Option β} {a : α} {l : List α} {b : β}
    (h : f a = some b) : (a :: l).findSome? f = some b := by
  rw [List.findSome?_cons, h]

theorem parse4Y_render4 {y : Nat} (hy : y ≤ 9999) (rest : List Char) :
    parse4Y (render4 y ++ rest) = some (y, rest) := by
  have h1 : y / 1000 ≤ 9 := by omega
  have h2 : y / 100 % 10 ≤ 9 := by omega
  have h3 : y / 10 % 10 ≤ 9 := by omega
  have h4 : y % 10 ≤ 9 := by omega
  simp only [render4, List.cons_append, List.nil_append, parse4Y,
    isDig_dChar h1, isDig_dChar h2, isDig_dChar h3, isDig_dChar h4,
    dv_dChar h1, dv_dChar h2, dv_dChar h3, dv_dChar h4,
    Bool.and_self, Bool.true_and, eq_self_iff_true, if_true]
  rw [show 1000 * (y / 1000) + 100 * (y / 100 % 10) + 10 * (y / 10 % 10) + y % 10 = y
    from by omega]

theorem findSome?_fieldAlts_two {α : Type} {ok2 ok1 : Nat → Bool} {v : Nat}
    {rest : List Char} {k : Nat × List Char → Option α} {r : α}
    (hv : v ≤ 99) (h2 : ok2 v = true) (hk : k (v, rest) = some r) :
    (fieldAlts ok2 ok1 (render2 v ++ rest)).findSome? k = some r := by
  have h10 : v / 10 ≤ 9 := by omega
  have h1 : v % 10 ≤ 9 := by omega
  have hd : 10 * dv (dChar (v / 10)) + dv (dChar (v % 10)) = v := by
    rw [dv_dChar h10, dv_dChar h1]
    omega
  simp only [render2, List.cons_append, List.nil_append, fieldAlts,
    isDig_dChar h10, isDig_dChar h1, hd, h2, Bool.and_self, Bool.true_and,
    eq_self_iff_true, if_true, List.singleton_append]
  exact findSome?_cons_of_some hk

theorem mem_fieldAlts_structure {ok2 ok1 : Nat → Bool} {x : Nat × List Char} (a b : Char)
    (rest : List Char) (hx : x ∈ fieldAlts ok2 ok1 (a :: b :: rest)) :
    x = (10 * dv a + dv b, rest) ∨ x = (dv a, b :: rest) := by
  simp only [fieldAlts, List.mem_append] at hx
  rcases hx with h | h
  · split at h
    · simp only [List.mem_singleton] at h
      exact Or.inl h
    · simp at h
  · split at h
    · simp only [List.mem_singleton] at h
      exact Or.inr h
    · simp at h

theorem mem_fieldAlts_render2 {ok2 ok1 : Nat → Bool} {x : Nat × List Char} {v : Nat}
    (hv : v ≤ 99) {rest : List Char} (hx : x ∈ fieldAlts ok2 ok1 (render2 v ++ rest)) :
    x = (v, rest) ∨ x = (v / 10, dChar (v % 10) :: rest) := by
  have h10 : v / 10 ≤ 9 := by omega
  have h1 : v % 10 ≤ 9 := by omega
  simp only [render2, List.cons_append, List.nil_append] at hx
  rcases mem_fieldAlts_structure _ _ _ hx with h | h
  · rw [dv_dChar h10, dv_dChar h1, show 10 * (v / 10) + v % 10 = v from by omega] at h
    exact Or.inl h
  · rw [dv_dChar h10] at h
    exact Or.inr h

theorem daysInMonth_le_31 (y m : Nat) : daysInMonth y m ≤ 31 := by
  rw [daysInMonth]
  split_ifs <;> omega

theorem strptime_renderFixed {y m d h mi s : Nat} (hy : y ≤ 9999) (hm1 : 1 ≤ m) (hm : m ≤ 12)
    (hd1 : 1 ≤ d) (hd : d ≤ 31) (hh : h ≤ 23) (hmi : mi ≤ 59) (hs : s ≤ 59) :
    strptimeFixed (renderFixed y m d h mi s) = some (y, m, d, h, mi, s) := by
  simp only [renderFixed, strptimeFixed, List.append_assoc, List.cons_append,
    parse4Y_render4 hy, litChar_cons_self]
  apply findSome?_fieldAlts_two (by omega)
    (by simp only [okMon2, decide_eq_true_eq]; omega)
  simp only [litChar_cons_self]
  apply findSome?_fieldAlts_two (by omega)
    (by simp only [okDay2, decide_eq_true_eq]; omega)
  simp only [litT_cons_T]
  apply findSome?_fieldAlts_two (by omega)
    (by simp only [okHour2, decide_eq_true_eq]; omega)
  simp only [litChar_cons_self]
  apply findSome?_fieldAlts_two (by omega)
    (by simp only [okMin2, decide_eq_true_eq]; omega)
  simp only [litChar_cons_self]
  apply findSome?_fieldAlts_two (by omega)
    (by simp only [okSec2, decide_eq_true_eq]; omega)
  rfl

theorem tailLit_render_iff {sgn : Char} {oh om : Nat} (hoh : oh ≤ 99) (hom : om ≤ 99) :
    tailLit (sgn :: (render2 oh ++ ':' :: render2 om)) = true ↔
      (sgn = '+' ∧ oh = 9 ∧ om = 0) := by
  have hoh10 : oh / 10 ≤ 9 := by omega
  have hoh1 : oh % 10 ≤ 9 := by omega
  have hom10 : om / 10 ≤ 9 := by omega
  have hom1 : om % 10 ≤ 9 := by omega
  simp only [render2, List.cons_append, List.nil_append, tailLit, Bool.and_eq_true,
    decide_eq_true_eq]
  constructor
  · rintro ⟨⟨⟨⟨⟨h1, h2⟩, h3⟩, _⟩, h5⟩, h6⟩
    refine ⟨h1, ?_, ?_⟩
    · have e2 := (dChar_eq_zero_iff hoh10).mp h2
      have e3 := (dChar_eq_nine_iff hoh1).mp h3
      omega
    · have e5 := (dChar_eq_zero_iff hom10).mp h5
      have e6 := (dChar_eq_zero_iff hom1).mp h6
      omega
  · rintro ⟨rfl, rfl, rfl⟩
    exact ⟨⟨⟨⟨⟨rfl, rfl⟩, rfl⟩, trivial⟩, rfl⟩, rfl⟩

theorem strptime_renderOff_none {y m d h mi s : Nat} {sgn : Char} {oh om : Nat}
    (hy : y ≤ 9999) (hm1 : 1 ≤ m) (hm : m ≤ 12) (hd1 : 1 ≤ d) (hd : d ≤ 31)
    (hh : h ≤ 23) (hmi : mi ≤ 59) (hs : s ≤ 59)
    (hoh : oh ≤ 99) (hom : om ≤ 99)
    (hne : ¬(sgn = '+' ∧ oh = 9 ∧ om = 0)) :
    strptimeFixed (renderOff y m d h mi s sgn oh om) = none := by
  have htail : tailLit (sgn :: (render2 oh ++ ':' :: render2 om)) = false := by
    rw [Bool.eq_false_iff, Ne, tailLit_render_iff hoh hom]
    exact hne
  have htail7 : ∀ a : Nat, a ≤ 9 →
      tailLit (dChar a :: sgn :: (render2 oh ++ ':' :: render2 om)) = false := by
    intro a ha
    simp [render2, tailLit]
  simp only [renderOff, strptimeFixed, List.append_assoc, List.cons_append,
    parse4Y_render4 hy, litChar_cons_self]
  rw [List.findSome?_eq_none_iff]
  intro xm hxm
  rcases mem_fieldAlts_render2 (by omega) hxm with rfl | rfl
  · -- two-digit month taken; continue at the day field
    simp only [litChar_cons_self]
    rw [List.findSome?_eq_none_iff]
    intro xd hxd
    rcases mem_fieldAlts_render2 (by omega) hxd with rfl | rfl
    · -- two-digit day; continue at the hour field
      simp only [litT_cons_T]
      rw [List.findSome?_eq_none_iff]
      intro xh hxh
      rcases mem_fieldAlts_render2 (by omega) hxh with rfl | rfl
      · -- two-digit hour; continue at the minute field
        simp only [litChar_cons_self]
        rw [List.findSome?_eq_none_iff]
        intro xn hxn
        rcases mem_fieldAlts_render2 (by omega) hxn with rfl | rfl
        · -- two-digit minute; continue at the second field
          simp only [litChar_cons_self]
          rw [List.findSome?_eq_none_iff]
          intro xs hxs
          rcases mem_fieldAlts_render2 (by omega) hxs with rfl | rfl
          · -- two-digit second; the offset literal +09:00 does not match
            simp only [htail, Bool.false_eq_true, if_false]
          · -- one-digit second: a digit where the offset sign should be
            simp only [htail7 (s % 10) (by omega), Bool.false_eq_true, if_false]
        · -- one-digit minute: a digit where ':' should be
          simp only [litChar_cons_ne (dChar_ne (mi % 10) (by omega) ':' (by decide))]
      · -- one-digit hour: a digit where ':' should be
        simp only [litChar_cons_ne (dChar_ne (h % 10) (by omega) ':' (by decide))]
    · -- one-digit day: a digit where 'T' should be
      simp only [litT_cons_digit (d % 10) (by omega)]
  · -- one-digit month: a digit where '-' should be
    simp only [litChar_cons_ne (dChar_ne (m % 10) (by omega) '-' (by decide))]

/-- C6 counterexample: the claim says `unify_date_format` fails with a
`FormatError` on every input that does not match the fixed pattern
exactly; but the string `2024-1-05T12:00:00+09:00` — a single-digit
month, hence not of the exact `YYYY-MM-DDTHH:MM:SS+09:00` shape — is
accepted by Python's lenient `strptime` field regexes and parses
successfully. -/
theorem c6_lenient_cex :
    specFixedPattern ("2024-1-05T12:00:00+09:00".data) = false ∧
    unify_date_format ("2024-1-05T12:00:00+09:00".data) =
      some ⟨2024, 1, 5, 12, 0, 0⟩ := by
  exact ⟨rfl, rfl⟩

/-- C6 (amended): `unify_date_format` succeeds on every string exactly
matching the fixed pattern `YYYY-MM-DDTHH:MM:SS+09:00` with valid
calendar values, returning precisely its fields, and fails on every
ISO-shaped date-time string whose numeric UTC offset is anything other
than `+09:00`; however the parsing is slightly lenient, not an exact
match test: single-digit month/day/hour/minute/second fields and a
lowercase `t` separator are also accepted (see the counterexample). -/
theorem c6_date_normalizer :
    (∀ y m d h mi s : Nat, 1 ≤ y → y ≤ 9999 → 1 ≤ m → m ≤ 12 → 1 ≤ d →
        d ≤ daysInMonth y m → h ≤ 23 → mi ≤ 59 → s ≤ 59 →
        unify_date_format (renderFixed y m d h mi s) = some ⟨y, m, d, h, mi, s⟩) ∧
    (∀ (y m d h mi s : Nat) (sgn : Char) (oh om : Nat), y ≤ 9999 → 1 ≤ m → m ≤ 12 →
        1 ≤ d → d ≤ 31 → h ≤ 23 → mi ≤ 59 → s ≤ 59 → oh ≤ 99 → om ≤ 99 →
        ¬(sgn = '+' ∧ oh = 9 ∧ om = 0) →
        unify_date_format (renderOff y m d h mi s sgn oh om) = none) := by
  constructor
  · intro y m d h mi s hy1 hy hm1 hm hd1 hd hh hmi hs
    have h31 : d ≤ 31 := le_trans hd (daysInMonth_le_31 y m)
    rw [unify_date_format, strptime_renderFixed hy hm1 hm hd1 h31 hh hmi hs]
    exact if_pos ⟨hy1, hy, hm1, hm, hd1, hd, hh, hmi, hs⟩
  · intro y m d h mi s sgn oh om hy hm1 hm hd1 hd hh hmi hs hoh hom hne
    rw [unify_date_format, strptime_renderOff_none hy hm1 hm hd1 hd hh hmi hs hoh hom hne]

/-- C6 witness: the pattern-conformant `2024-01-05T12:00:00+09:00`
parses to its fields; the same instant with offset `+09:30` fails. -/
theorem c6_date_normalizer_witness :
    unify_date_format (renderFixed 2024 1 5 12 0 0) = some ⟨2024, 1, 5, 12, 0, 0⟩ ∧
    unify_date_format (renderOff 2024 1 5 12 0 0 '+' 9 30) = none :=
  ⟨c6_date_normalizer.1 2024 1 5 12 0 0 (by decide) (by decide) (by decide) (by decide)
      (by decide) (by decide) (by decide) (by decide) (by decide),
   c6_date_normalizer.2 2024 1 5 12 0 0 '+' 9 30 (by decide) (by decide) (by decide)
      (by decide) (by decide) (by decide) (by decide) (by decide) (by decide) (by decide)
      (by decide)⟩

/-- C7 counterexample: the claim says `HTMLParser.parse` returns the
id/url-only record for every fetch failure; but for a transport-level
failure (`requests` exception), `make_request` raises and `parse` has no
handler, so no record is returned — the exception propagates. -/
theorem c7_transport_cex :
    parseArticle (fun _ => ArtFetch.transport) "https://gtrksakha.ru/news/2030" 1 =
      .error .transportError := rfl

/-- C7 (amended): for every article URL whose fetch returns a non-2xx
status, `HTMLParser.parse` returns the ArticleRecord with only its id and
url populated — equal to the constructor arguments — and every other
field left default/empty; on a transport error, by contrast, the
exception propagates and no record is returned. -/
theorem c7_partial_record (fetchA : String → ArtFetch) (url : String) (id : Nat)
    (status : Nat) (page : ArticlePage) (hf : fetchA url = .response status page)
    (hs : status ≠ 200) :
    parseArticle fetchA url id =
      .ok { url := url, article_id := id, text := "", title := "", author := [],
            date := none, topics := [] } := by
  simp only [parseArticle, hf, if_neg hs]

/-- C7 witness: a 404 article fetch yields the pristine id/url record. -/
theorem c7_partial_record_witness :
    parseArticle (fun _ => ArtFetch.response 404 ⟨none, none, none, []⟩)
        "https://gtrksakha.ru/news/2030" 7 =
      .ok { url := "https://gtrksakha.ru/news/2030", article_id := 7, text := "",
            title := "", author := [], date := none, topics := [] } :=
  c7_partial_record _ _ 7 404 ⟨none, none, none, []⟩ rfl (by decide)

/-- C5 counterexample: the claim says one article's extraction failure
never aborts the extraction of the other articles; but `main` has no
`try` around `parser.parse()`, so with three discovered URLs whose second
page lacks the body container, the loop aborts with `AttributeError` and
the third article — which alone would parse fine — is never extracted. -/
theorem c5_abort_cex :
    mainLoop
      (fun u =>
        if u = "https://gtrksakha.ru/news/2002" then
          ArtFetch.response 200 ⟨none, some "T2", some ("A", "2024-01-05T12:00:00+09:00"), []⟩
        else
          ArtFetch.response 200
            ⟨some ["p1"], some "T", some ("A", "2024-01-05T12:00:00+09:00"), []⟩)
      ["https://gtrksakha.ru/news/2001", "https://gtrksakha.ru/news/2002",
       "https://gtrksakha.ru/news/2003"] 1 = .error .attributeError ∧
    parseArticle
      (fun u =>
        if u = "https://gtrksakha.ru/news/2002" then
          ArtFetch.response 200 ⟨none, some "T2", some ("A", "2024-01-05T12:00:00+09:00"), []⟩
        else
          ArtFetch.response 200
            ⟨some ["p1"], some "T", some ("A", "2024-01-05T12:00:00+09:00"), []⟩)
      "https://gtrksakha.ru/news/2003" 3 =
      .ok { url := "https://gtrksakha.ru/news/2003", article_id := 3, text := "p1\n",
            title := "T", author := ["A"], date := some ⟨2024, 1, 5, 12, 0, 0⟩,
            topics := [] } := by
  exact ⟨rfl, rfl⟩

/-- C5 (amended): a failure while extracting one article never affects
the crawl's discovery phase — `main` completes `find_articles` before any
extraction starts, so the discovered frontier is the same whatever the
article-extraction outcomes — but it does abort the extraction of the
remaining articles: the per-article loop stops at the first failing
article and its exception escapes. -/
theorem c5_extraction_abort :
    (∀ (fetch : String → FetchOutcome) (fA fA' : String → ArtFetch) (cfg : Config)
        (us : List String), findArticles fetch cfg = .ok us →
        mainModel fetch fA cfg = .ok (us, mainLoop fA us 1) ∧
        mainModel fetch fA' cfg = .ok (us, mainLoop fA' us 1)) ∧
    (∀ (fA : String → ArtFetch) (u : String) (rest : List String) (i : Nat) (e : PyErr),
        parseArticle fA u i = .error e → mainLoop fA (u :: rest) i = .error e) := by
  constructor
  · intro fetch fA fA' cfg us h
    rw [mainModel, h, mainModel, h]
    exact ⟨rfl, rfl⟩
  · intro fA u rest i e h
    simp only [mainLoop, h]

/-- C5 witness: with one discovered URL whose page lacks the body
container, discovery still yields the same frontier as with a healthy
extractor, and the extraction loop aborts at the failing article. -/
theorem c5_extraction_abort_witness :
    (mainModel (fun _ => FetchOutcome.response 200 ["https://gtrksakha.ru/news/2030"])
        (fun _ => ArtFetch.response 200 ⟨none, none, none, []⟩)
        ⟨["https://seed.example"], 1⟩ =
      .ok (["https://gtrksakha.ru/news/2030"],
        mainLoop (fun _ => ArtFetch.response 200 ⟨none, none, none, []⟩)
          ["https://gtrksakha.ru/news/2030"] 1)) ∧
    mainLoop (fun _ => ArtFetch.response 200 ⟨none, none, none, []⟩)
        ["https://gtrksakha.ru/news/2030"] 1 = .error .attributeError :=
  ⟨(c5_extraction_abort.1 (fun _ => FetchOutcome.response 200 ["https://gtrksakha.ru/news/2030"])
      (fun _ => ArtFetch.response 200 ⟨none, none, none, []⟩)
      (fun _ => ArtFetch.response 200 ⟨none, none, none, []⟩)
      ⟨["https://seed.example"], 1⟩ ["https://gtrksakha.ru/news/2030"] rfl).1,
   c5_extraction_abort.2 (fun _ => ArtFetch.response 200 ⟨none, none, none, []⟩)
      "https://gtrksakha.ru/news/2030" [] 1 .attributeError rfl⟩

theorem matchSeq_iff (p : List Char) (k : List Char → Bool) :
    ∀ s, matchSeq p k s = true ↔ ∃ rest, s = p ++ rest ∧ k rest = true := by
  induction p with
  | nil =>
    intro s
    simp [matchSeq]
  | cons c p ih =>
    intro s
    cases s with
    | nil =>
      simp [matchSeq]
    | cons x s' =>
      simp only [matchSeq, Bool.and_eq_true, decide_eq_true_eq, ih, List.cons_append]
      constructor
      · rintro ⟨rfl, rest, rfl, hk⟩
        exact ⟨rest, rfl, hk⟩
      · rintro ⟨rest, heq, hk⟩
        rw [List.cons.injEq] at heq
        exact ⟨heq.1, rest, heq.2, hk⟩

theorem matchSPlus_iff (s : List Char) :
    matchSPlus s = true ↔ ∃ c rest, s = c :: rest ∧ pyIsSpace c = false := by
  cases s with
  | nil => simp [matchSPlus]
  | cons c rest =>
    simp only [matchSPlus, Bool.not_eq_true']
    constructor
    · intro h
      exact ⟨c, rest, rfl, h⟩
    · rintro ⟨c', rest', heq, h⟩
      rw [List.cons.injEq] at heq
      rw [heq.1]
      exact h

theorem matchOptS_iff (k : List Char → Bool) (s : List Char) :
    matchOptS k s = true ↔ (∃ s2, s = 's' :: s2 ∧ k s2 = true) ∨ k s = true := by
  cases s with
  | nil => simp [matchOptS]
  | cons x s2 =>
    simp only [matchOptS, Bool.or_eq_true, Bool.and_eq_true, decide_eq_true_eq]
    constructor
    · rintro (⟨rfl, h⟩ | h)
      · exact Or.inl ⟨s2, rfl, h⟩
      · exact Or.inr h
    · rintro (⟨s3, heq, h⟩ | h)
      · rw [List.cons.injEq] at heq
        rw [heq.2]
        exact Or.inl ⟨heq.1, h⟩
      · exact Or.inr h

/-- C10: `is_valid_url` — the predicate `_validate_config_content`
applies to every seed URL — returns `True` for exactly the strings that
begin with `http://`, `https://`, or `www.` immediately followed by a
non-whitespace character; everything after that is unconstrained, so
scheme-less `www.`-prefixed strings are accepted as seed URLs. -/
theorem c10_is_valid_url (s : List Char) :
    is_valid_url s = true ↔
      ∃ (c : Char) (rest : List Char), pyIsSpace c = false ∧
        (s = ['h', 't', 't', 'p', ':', '/', '/'] ++ c :: rest ∨
         s = ['h', 't', 't', 'p', 's', ':', '/', '/'] ++ c :: rest ∨
         s = ['w', 'w', 'w', '.'] ++ c :: rest) := by
  rw [is_valid_url, pyMatch, Bool.or_eq_true, matchSeq_iff, matchSeq_iff]
  constructor
  · rintro (⟨rest0, rfl, hopt⟩ | ⟨rest0, rfl, hsp⟩)
    · rw [matchOptS_iff] at hopt
      rcases hopt with ⟨s2, rfl, hk⟩ | hk
      · rw [matchSeq_iff] at hk
        obtain ⟨r1, rfl, hsp⟩ := hk
        rw [matchSPlus_iff] at hsp
        obtain ⟨c, rest, rfl, hc⟩ := hsp
        exact ⟨c, rest, hc, Or.inr (Or.inl (by simp))⟩
      · rw [matchSeq_iff] at hk
        obtain ⟨r1, rfl, hsp⟩ := hk
        rw [matchSPlus_iff] at hsp
        obtain ⟨c, rest, rfl, hc⟩ := hsp
        exact ⟨c, rest, hc, Or.inl (by simp)⟩
    · rw [matchSPlus_iff] at hsp
      obtain ⟨c, rest, rfl, hc⟩ := hsp
      exact ⟨c, rest, hc, Or.inr (Or.inr (by simp))⟩
  · rintro ⟨c, rest, hc, rfl | rfl | rfl⟩
    · refine Or.inl ⟨[':', '/', '/'] ++ c :: rest, by simp, ?_⟩
      rw [matchOptS_iff]
      refine Or.inr ?_
      rw [matchSeq_iff]
      exact ⟨c :: rest, rfl, (matchSPlus_iff _).mpr ⟨c, rest, rfl, hc⟩⟩
    · refine Or.inl ⟨['s', ':', '/', '/'] ++ c :: rest, by simp, ?_⟩
      rw [matchOptS_iff]
      refine Or.inl ⟨[':', '/', '/'] ++ c :: rest, by simp, ?_⟩
      rw [matchSeq_iff]
      exact ⟨c :: rest, rfl, (matchSPlus_iff _).mpr ⟨c, rest, rfl, hc⟩⟩
    · refine Or.inr ⟨c :: rest, by simp, ?_⟩
      exact (matchSPlus_iff _).mpr ⟨c, rest, rfl, hc⟩

theorem validateConfig_ok {c : ConfigDict}
    (h1 : pyIsStrList c.seed_urls = true)
    (h2 : (strListOf c.seed_urls).all (fun t => is_valid_url t.data) = true)
    (h3 : pyIsDict c.headers = true) (h4 : pyIsStr c.encoding = true)
    (h5 : pyIsBool c.should_verify = true) (h6 : pyIsBool c.headless = true)
    (hcnt : pyIsInt c.total_articles = true ∧ ¬ pyIsBool c.total_articles = true ∧
      0 ≤ pyIntVal c.total_articles ∧ pyIntVal c.total_articles ≤ 150)
    (htm : pyIsInt c.timeout = true ∧ 0 ≤ pyIntVal c.timeout ∧ pyIntVal c.timeout ≤ 60) :
    validateConfig c = .ok () := by
  rw [validateConfig, if_neg (not_not_intro h1), if_neg (not_not_intro h2),
    if_neg (fun h => h.elim (fun h' => h' ⟨hcnt.1, hcnt.2.2.1⟩) hcnt.2.1),
    if_neg (by omega), if_neg (not_not_intro h3), if_neg (not_not_intro h4),
    if_neg (not_not_intro htm), if_neg (not_not_intro h5), if_neg (not_not_intro h6)]

theorem validateConfig_count_err {c : ConfigDict}
    (h1 : pyIsStrList c.seed_urls = true)
    (h2 : (strListOf c.seed_urls).all (fun t => is_valid_url t.data) = true)
    (hbad : ¬ (pyIsInt c.total_articles = true ∧ 0 ≤ pyIntVal c.total_articles) ∨
      pyIsBool c.total_articles = true) :
    validateConfig c = .error .incorrectNumberOfArticles := by
  rw [validateConfig, if_neg (not_not_intro h1), if_neg (not_not_intro h2), if_pos hbad]

theorem validateConfig_range_err {c : ConfigDict}
    (h1 : pyIsStrList c.seed_urls = true)
    (h2 : (strListOf c.seed_urls).all (fun t => is_valid_url t.data) = true)
    (hcnt : pyIsInt c.total_articles = true ∧ ¬ pyIsBool c.total_articles = true ∧
      0 ≤ pyIntVal c.total_articles)
    (hgt : 150 < pyIntVal c.total_articles) :
    validateConfig c = .error .numberOfArticlesOutOfRange := by
  rw [validateConfig, if_neg (not_not_intro h1), if_neg (not_not_intro h2),
    if_neg (fun h => h.elim (fun h' => h' ⟨hcnt.1, hcnt.2.2⟩) hcnt.2.1), if_pos hgt]

theorem validateConfig_timeout_err {c : ConfigDict}
    (h1 : pyIsStrList c.seed_urls = true)
    (h2 : (strListOf c.seed_urls).all (fun t => is_valid_url t.data) = true)
    (h3 : pyIsDict c.headers = true) (h4 : pyIsStr c.encoding = true)
    (hcnt : pyIsInt c.total_articles = true ∧ ¬ pyIsBool c.total_articles = true ∧
      0 ≤ pyIntVal c.total_articles ∧ pyIntVal c.total_articles ≤ 150)
    (htbad : ¬ (pyIsInt c.timeout = true ∧ 0 ≤ pyIntVal c.timeout ∧
      pyIntVal c.timeout ≤ 60)) :
    validateConfig c = .error .incorrectTimeout := by
  rw [validateConfig, if_neg (not_not_intro h1), if_neg (not_not_intro h2),
    if_neg (fun h => h.elim (fun h' => h' ⟨hcnt.1, hcnt.2.2.1⟩) hcnt.2.1),
    if_neg (by omega), if_neg (not_not_intro h3), if_neg (not_not_intro h4),
    if_pos htbad]

/-- C9: for a config whose other fields are well-formed (seed URLs a
list of strings each passing `is_valid_url`, headers a dict, encoding a
string, the two flags booleans), `_validate_config_content` accepts
exactly when the target article count is a non-boolean integer in 0..150
and the timeout is an integer (Python-wise, booleans included) in 0..60;
otherwise it raises `IncorrectNumberOfArticlesError` (count not an
integer, negative, or a boolean), `NumberOfArticlesOutOfRangeError`
(integer count above 150), or `IncorrectTimeoutError` (timeout not an
integer in 0..60).  Validation performs no network access: it runs in
`Config.__init__` before any request can be issued. -/
theorem c9_validation (c : ConfigDict)
    (h1 : pyIsStrList c.seed_urls = true)
    (h2 : (strListOf c.seed_urls).all (fun t => is_valid_url t.data) = true)
    (h3 : pyIsDict c.headers = true) (h4 : pyIsStr c.encoding = true)
    (h5 : pyIsBool c.should_verify = true) (h6 : pyIsBool c.headless = true) :
    (validateConfig c = .ok () ↔
      ((pyIsInt c.total_articles = true ∧ ¬ pyIsBool c.total_articles = true ∧
        0 ≤ pyIntVal c.total_articles ∧ pyIntVal c.total_articles ≤ 150) ∧
       (pyIsInt c.timeout = true ∧ 0 ≤ pyIntVal c.timeout ∧ pyIntVal c.timeout ≤ 60))) ∧
    ((¬ (pyIsInt c.total_articles = true ∧ 0 ≤ pyIntVal c.total_articles) ∨
        pyIsBool c.total_articles = true) →
      validateConfig c = .error .incorrectNumberOfArticles) ∧
    ((pyIsInt c.total_articles = true ∧ ¬ pyIsBool c.total_articles = true ∧
        0 ≤ pyIntVal c.total_articles) → 150 < pyIntVal c.total_articles →
      validateConfig c = .error .numberOfArticlesOutOfRange) ∧
    ((pyIsInt c.total_articles = true ∧ ¬ pyIsBool c.total_articles = true ∧
        0 ≤ pyIntVal c.total_articles ∧ pyIntVal c.total_articles ≤ 150) →
      ¬ (pyIsInt c.timeout = true ∧ 0 ≤ pyIntVal c.timeout ∧ pyIntVal c.timeout ≤ 60) →
      validateConfig c = .error .incorrectTimeout) := by
  refine ⟨⟨?_, fun h => validateConfig_ok h1 h2 h3 h4 h5 h6 h.1 h.2⟩,
    validateConfig_count_err h1 h2,
    validateConfig_range_err h1 h2,
    validateConfig_timeout_err h1 h2 h3 h4⟩
  intro hok
  by_cases hb : pyIsBool c.total_articles = true
  · rw [validateConfig_count_err h1 h2 (Or.inr hb)] at hok
    exact Except.noConfusion hok
  by_cases hi : pyIsInt c.total_articles = true
  · by_cases hnn : 0 ≤ pyIntVal c.total_articles
    · by_cases h150 : pyIntVal c.total_articles ≤ 150
      · by_cases ht : pyIsInt c.timeout = true ∧ 0 ≤ pyIntVal c.timeout ∧
            pyIntVal c.timeout ≤ 60
        · exact ⟨⟨hi, hb, hnn, h150⟩, ht⟩
        · rw [validateConfig_timeout_err h1 h2 h3 h4 ⟨hi, hb, hnn, h150⟩ ht] at hok
          exact Except.noConfusion hok
      · rw [validateConfig_range_err h1 h2 ⟨hi, hb, hnn⟩ (by omega)] at hok
        exact Except.noConfusion hok
    · rw [validateConfig_count_err h1 h2 (Or.inl fun h => hnn h.2)] at hok
      exact Except.noConfusion hok
  · rw [validateConfig_count_err h1 h2 (Or.inl fun h => hi h.1)] at hok
    exact Except.noConfusion hok

/-- C9 witness: a fully well-formed config (two valid seeds, count 5,
timeout 30) is accepted; the same config with count 200 is rejected as
out of range. -/
theorem c9_validation_witness :
    validateConfig
      ⟨PyVal.vlist [PyVal.vstr "https://gtrksakha.ru/", PyVal.vstr "www.gtrksakha.ru"],
       PyVal.vint 5, PyVal.vdict, PyVal.vstr "utf-8", PyVal.vint 30,
       PyVal.vbool true, PyVal.vbool false⟩ = .ok () ∧
    validateConfig
      ⟨PyVal.vlist [PyVal.vstr "https://gtrksakha.ru/", PyVal.vstr "www.gtrksakha.ru"],
       PyVal.vint 200, PyVal.vdict, PyVal.vstr "utf-8", PyVal.vint 30,
       PyVal.vbool true, PyVal.vbool false⟩ = .error .numberOfArticlesOutOfRange :=
  ⟨(c9_validation
      ⟨PyVal.vlist [PyVal.vstr "https://gtrksakha.ru/", PyVal.vstr "www.gtrksakha.ru"],
       PyVal.vint 5, PyVal.vdict, PyVal.vstr "utf-8", PyVal.vint 30,
       PyVal.vbool true, PyVal.vbool false⟩
      (by decide) (by decide) (by decide) (by decide) (by decide) (by decide)).1.mpr
      ⟨⟨by decide, fun h => Bool.noConfusion h, by decide, by decide⟩,
       by decide, by decide, by decide⟩,
   (c9_validation
      ⟨PyVal.vlist [PyVal.vstr "https://gtrksakha.ru/", PyVal.vstr "www.gtrksakha.ru"],
       PyVal.vint 200, PyVal.vdict, PyVal.vstr "utf-8", PyVal.vint 30,
       PyVal.vbool true, PyVal.vbool false⟩
      (by decide) (by decide) (by decide) (by decide) (by decide) (by decide)).2.2.1
      ⟨by decide, fun h => Bool.noConfusion h, by decide⟩ (by decide)⟩
